import Mathlib

/-!
Shallow embedding of the NDR validation core:
`src/ndr_extractor.py` (identifier and HIVQuestions handling) and
`src/ndr_validator.py` (`validate_ndr`).

Design notes for the embedding:
* Python `datetime.strptime(s, "%Y-%m-%d")` is modelled by `NDR.parseDate`
  after CPython's `_strptime` token regexes: `%Y` is exactly four digits,
  `%m` is one or two digits valued 1-12, `%d` is one or two digits or a
  space followed by a nonzero digit, with `datetime` calendar validity
  enforced; `datetime` comparison is lexicographic on (year, month, day).
* Python `int(...)` is modelled by `NDR.parsePyInt` (optional surrounding
  whitespace, optional sign, decimal digits).
* Python `float(...)` is modelled by `NDR.parsePyFloat` on plain decimal
  literals (optional sign, digits, optional fractional part); exponent and
  special forms such as `inf` are not used by the record fields.
* An uncaught Python exception is modelled by `Except.error ()`: the only
  statement of `validate_ndr` that can raise on a `ClinicalRecord` is the
  bare `datetime.strptime(d, ...)` applied to IPT regimen date keys inside
  the two `any(...)` generators of the TB/IPT cross-check.
* Python dictionaries are modelled as ordered association lists
  (insertion order, unique keys in records produced by the extractor);
  the `ipt_dates` set comprehension is modelled as the key list in
  insertion order.
* Each emitted issue string is paired with a `Tag` naming the statement of
  the source that emitted it; the string-only output of `validate_ndr` is
  the second projection.  The dedup set `seen_issues` receives exactly the
  strings passed through `add_issue`, as in the source.
-/

namespace NDR

/-! ## String helpers -/

/-- Is `p` a prefix of `l`? (used for Python's substring test `in`). -/
def prefLe : List Char → List Char → Bool
  | [], _ => true
  | _ :: _, [] => false
  | a :: as, b :: bs => a == b && prefLe as bs

/-- Does `l` contain `n` as a contiguous run? -/
def subIn (n : List Char) : List Char → Bool
  | [] => n.isEmpty
  | c :: t => prefLe n (c :: t) || subIn n t

/-- Python's `needle in hay` on strings. -/
def strHas (hay needle : String) : Bool := subIn needle.data hay.data

/-- Split a character list at every occurrence of `sep` (like
`str.split(sep)`). -/
def splitOnC (sep : Char) : List Char → List (List Char)
  | [] => [[]]
  | c :: rest =>
    match splitOnC sep rest with
    | [] => [[c]]
    | g :: gs => if c = sep then [] :: g :: gs else (c :: g) :: gs

/-- The whitespace characters `str.strip()` removes (ASCII subset). -/
def isSpaceC (c : Char) : Bool :=
  c = ' ' ∨ c = '\t' ∨ c = '\n' ∨ c = '\r' ∨ c = '\x0b' ∨ c = '\x0c'

/-- `str.strip()` on a character list. -/
def trimL (l : List Char) : List Char :=
  ((l.dropWhile isSpaceC).reverse.dropWhile isSpaceC).reverse

/-- `str.upper()` (ASCII). -/
def upperStr (s : String) : String := String.mk (s.data.map Char.toUpper)

/-- Python truthiness of an optional string: `None` and `""` are falsy. -/
def truthyS : Option String → Bool
  | none => false
  | some s => !(s == "")

/-- Python `str(x)` / f-string rendering of an optional string (`None` prints
as `None`). -/
def pyShow : Option String → String
  | none => "None"
  | some s => s

/-! ## Numeric parsing -/

/-- Value of a digit list, most significant first. -/
def digitsVal (l : List Char) : Nat := l.foldl (fun n c => n * 10 + (c.toNat - 48)) 0

/-- Parse a nonempty all-digit character list. -/
def natFromDigits : List Char → Option Nat := fun l =>
  if l ≠ [] ∧ l.all Char.isDigit then some (digitsVal l) else none

/-- Python `int(s)` on a string: optional surrounding whitespace, optional
sign, decimal digits. -/
def parsePyInt (s : String) : Option Int :=
  match trimL s.data with
  | [] => none
  | c :: cs =>
    if c = '+' then (natFromDigits cs).map (fun n => (n : Int))
    else if c = '-' then (natFromDigits cs).map (fun n => -(n : Int))
    else (natFromDigits (c :: cs)).map (fun n => (n : Int))

/-- Python `float(s)` on plain decimal literals, as (mantissa, scale):
the value is mantissa / 10 ^ scale. -/
def parsePyFloat (s : String) : Option (Int × Nat) :=
  match trimL s.data with
  | [] => none
  | c :: cs =>
    let core := fun (l : List Char) (sign : Int) =>
      match splitOnC '.' l with
      | [a] => (natFromDigits a).map (fun n => (sign * n, 0))
      | [a, b] =>
        if (a.all Char.isDigit ∧ b.all Char.isDigit) ∧ (a ≠ [] ∨ b ≠ []) then
          some (sign * (digitsVal (a ++ b) : Int), b.length)
        else none
      | _ => none
    if c = '+' then core cs 1
    else if c = '-' then core cs (-1)
    else core (c :: cs) 1

/-- Is the parsed float value strictly greater than 200? -/
def floatGt200 (v : Int × Nat) : Bool := decide ((200 : Int) * (10 : Int) ^ v.2 < v.1)

/-- Left-pad the decimal digits of `n` with zeros to width `k`. -/
def padLeft0 (k : Nat) (n : Nat) : String :=
  let s := toString n
  if s.length < k then String.mk (List.replicate (k - s.length) '0') ++ s else s

/-- Drop trailing zero digits of the fractional part. -/
def floatNorm : Int → Nat → Int × Nat
  | m, 0 => (m, 0)
  | m, k + 1 => if m % 10 = 0 then floatNorm (m / 10) k else (m, k + 1)

/-- Python `repr` of a simple decimal float value. -/
def floatRepr (v : Int × Nat) : String :=
  let w := floatNorm v.1 v.2
  let sign := if w.1 < 0 then "-" else ""
  let a := w.1.natAbs
  if w.2 = 0 then sign ++ toString a ++ ".0"
  else sign ++ toString (a / 10 ^ w.2) ++ "." ++ padLeft0 w.2 (a % 10 ^ w.2)

/-! ## Dates -/

/-- A parsed `datetime` (date part). -/
structure Date where
  y : Nat
  m : Nat
  d : Nat
  deriving DecidableEq, Repr

/-- Gregorian leap year, as `datetime` uses. -/
def isLeap (y : Nat) : Bool := decide (y % 4 = 0 ∧ (y % 100 ≠ 0 ∨ y % 400 = 0))

/-- Days in a month, as `datetime` uses. -/
def daysInMonth (y m : Nat) : Nat :=
  if m = 2 then (if isLeap y then 29 else 28)
  else if m = 4 ∨ m = 6 ∨ m = 9 ∨ m = 11 then 30
  else 31

/-- The `%Y` token of CPython's `_strptime`: exactly four digits. -/
def yearTok (l : List Char) : Option Nat :=
  if l.length = 4 ∧ l.all Char.isDigit then some (digitsVal l) else none

/-- The `%m` token of CPython's `_strptime`: one or two digits (the value
range 1-12 is checked by the caller, as the regex alternatives do). -/
def monthTok (l : List Char) : Option Nat :=
  if l ≠ [] ∧ l.length ≤ 2 ∧ l.all Char.isDigit then some (digitsVal l) else none

/-- The `%d` token of CPython's `_strptime`: one or two digits, or a space
followed by a nonzero digit (the regex alternative `" [1-9]"`). -/
def dayTok (l : List Char) : Option Nat :=
  match l with
  | [' ', c] => if c.isDigit ∧ c ≠ '0' then some (c.toNat - 48) else none
  | _ => if l ≠ [] ∧ l.length ≤ 2 ∧ l.all Char.isDigit then some (digitsVal l) else none

/-- Python `datetime.strptime(s, "%Y-%m-%d")`: the three dash-separated
`%Y`/`%m`/`%d` tokens above, then `datetime` range and calendar validation;
any failure raises, modelled as `none`. -/
def parseDate (s : String) : Option Date :=
  match splitOnC '-' s.data with
  | [ys, ms, ds] =>
    match yearTok ys, monthTok ms, dayTok ds with
    | some y, some m, some d =>
      if 1 ≤ y ∧ 1 ≤ m ∧ m ≤ 12 ∧ 1 ≤ d ∧ d ≤ daysInMonth y m then
        some ⟨y, m, d⟩
      else none
    | _, _, _ => none
  | _ => none

/-- `datetime` order (lexicographic), non-strict. -/
def dateLe (a b : Date) : Bool :=
  decide (a.y < b.y ∨ (a.y = b.y ∧ (a.m < b.m ∨ (a.m = b.m ∧ a.d ≤ b.d))))

/-- `datetime` order (lexicographic), strict. -/
def dateLt (a b : Date) : Bool :=
  decide (a.y < b.y ∨ (a.y = b.y ∧ (a.m < b.m ∨ (a.m = b.m ∧ a.d < b.d))))

/-- Pad to two digits, as `date.isoformat` does. -/
def pad2 (n : Nat) : String := if n < 10 then "0" ++ toString n else toString n

/-- Pad the year to four digits, as `date.isoformat` / `%Y` do. -/
def pad4 (n : Nat) : String :=
  if n < 10 then "000" ++ toString n
  else if n < 100 then "00" ++ toString n
  else if n < 1000 then "0" ++ toString n
  else toString n

/-- `str(dt.date())` and `dt.strftime("%Y-%m-%d")`. -/
def fmtDate (a : Date) : String := pad4 a.y ++ "-" ++ pad2 a.m ++ "-" ++ pad2 a.d

/-! ## Data model (§3 of the spec, as read by `validate_ndr`) -/

/-- One `encounters` entry. -/
structure Encounter where
  arv : Option String
  tb : Option String
  height : Option String
  deriving DecidableEq, Repr

/-- One `regimens` entry. -/
structure Regimen where
  code : Option String
  codetext : Option String
  rtype : Option String
  duration : Option String
  mmd : Option String
  deriving DecidableEq, Repr

/-- One `labs` entry. -/
structure Lab where
  test_id : Option String
  collected : Option String
  deriving DecidableEq, Repr

/-- The `patient` sub-dictionary (fields `validate_ndr` reads). -/
structure Patient where
  hn : Option String
  tb_id : Option String
  dob : Option String
  age : Option String
  report_date : Option String
  height_at_art_start : Option String
  deriving DecidableEq, Repr

/-- The `ClinicalRecord` dictionary handed to `validate_ndr`. -/
structure ClinicalRecord where
  patient : Patient
  art_start : Option Date
  validation_flags : List String
  encounters : List (String × Encounter)
  regimens : List (String × Regimen)
  labs : List (String × Lab)
  deriving DecidableEq, Repr

/-- Which source statement emitted an issue. -/
inductive Tag where
  | invalidId
  | missingHN
  | artMissingGlobal
  | addressFlag
  | encUnknown
  | arvMissing
  | chronoViolation
  | artMissingEnc
  | visitFormat
  | tbMissing
  | tbNoIpt
  | tbConflict
  | durRange
  | durMMD
  | durNonNum
  | arvMismatch
  | labIncomplete
  | ageMismatch
  | ageWarn
  | heightArt
  | heightEnc
  deriving DecidableEq, Repr

/-- A tagged issue: the tag and the emitted string. -/
abbrev TIssue := Tag × String

/-! ## Message texts (verbatim from the source) -/

def mkHNMsg (tb : Option String) : String :=
  "❌ Missing valid Treatment Patient identifier (HN). Supplied TB ID: " ++ pyShow tb

def artMissingGlobalMsg : String := "❌ ARTStartDate is missing in HIVQuestions section."

def addrFlagList : List String :=
  ["Missing AddressTypeCode in PatientAddress",
   "Missing LGACode in PatientAddress",
   "Missing StateCode in PatientAddress",
   "Missing CountryCode in PatientAddress",
   "Missing PatientAddress element"]

def encUnknownMsg : String := "❌ Encounter missing VisitDate."

def mkArvMissing (d : String) : String := "❌ " ++ d ++ ": ARVDrugRegimen/Code is missing."

def mkChrono (d : String) (a : Date) : String :=
  "❌ " ++ d ++ ": Encounter precedes ARTStartDate (" ++ fmtDate a ++ ")."

def mkArtMissingEnc (d : String) : String := "❌ " ++ d ++ ": ARTStartDate Missing."

def mkVisitWarn (d : String) : String := "⚠️ " ++ d ++ ": VisitDate has invalid format."

def mkTbMissing (d : String) : String := "❌ " ++ d ++ ": TBStatus is missing."

def mkNoIpt (d : String) : String :=
  "❌ " ++ d ++ ": TBStatus 0 but no IPT (INH) regimen on/after this date."

def mkConflict (d t : String) : String :=
  "❌ " ++ d ++ ": IPT recorded for TBStatus " ++ t ++ " (should receive TB treatment)."

def mkRangeMsg (d ct : String) (n : Int) : String :=
  "❌ " ++ d ++ ": PrescribedRegimenDuration " ++ ct ++ " is " ++ toString n ++
    ", expected between 1 and 180 days."

def mkMMD (d : String) : String := "❌ " ++ d ++ ": Regimen duration >30 days but MMD not specified."

def mkDurWarn (d : String) : String := "⚠️ " ++ d ++ ": Regimen duration not numeric."

def mkMismatch (d a c : String) : String :=
  "❌ " ++ d ++ ": ARV code mismatch (Encounter=" ++ a ++ ", Regimen=" ++ c ++ ")."

def mkLab (d : String) : String := "❌ " ++ d ++ ": Lab report missing test ID or collection date."

def mkAgeMsg (a : String) (c : Int) : String :=
  "❌ Reported age (" ++ a ++ ") vs calculated (" ++ toString c ++ ") differs by >1 year."

def ageWarnMsg : String := "⚠️ Unable to validate age (date format issue)."

def mkHeightArt (s v : String) : String :=
  "❌ ART Start (" ++ s ++ "): Child Height at ART start > 200 (" ++ v ++ ")."

def mkHeightEnc (d v : String) : String := "❌ " ++ d ++ ": Child Height > 200 (" ++ v ++ ")."

/-! ## The validator (`validate_ndr`, src/ndr_validator.py lines 3-160) -/

/-- Line 16: `"INH" in (r["code"] or "").upper()`. -/
def isINH (reg : Regimen) : Bool := strHas (upperStr (reg.code.getD "")) "INH"

/-- Lines 14-17: the `ipt_dates` set comprehension, as the key list in
insertion order. -/
def iptDates (regs : List (String × Regimen)) : List String :=
  (regs.filter (fun kv => isINH kv.2)).map (fun kv => kv.1)

/-- Lines 20-27: re-emit every validation flag containing
`"Invalid identifier"`. -/
def invalidIdIssues (r : ClinicalRecord) : List TIssue :=
  (r.validation_flags.filter (fun f => strHas f "Invalid identifier")).map
    (fun f => (Tag.invalidId, "❌ " ++ f))

/-- Lines 30-31: missing HN issue. -/
def hnIssue (r : ClinicalRecord) : List TIssue :=
  match r.patient.hn with
  | none => [(Tag.missingHN, mkHNMsg r.patient.tb_id)]
  | some _ => []

/-- Lines 35-36: global missing-ART-start issue. -/
def artMissingIssue (r : ClinicalRecord) : List TIssue :=
  if r.validation_flags.contains "Missing ARTStartDate" || r.art_start.isNone then
    [(Tag.artMissingGlobal, artMissingGlobalMsg)]
  else []

/-- Lines 40-50: address flags re-emitted in the fixed order. -/
def addressIssues (r : ClinicalRecord) : List TIssue :=
  (addrFlagList.filter (fun f => r.validation_flags.contains f)).map
    (fun f => (Tag.addressFlag, "❌ " ++ f))

/-- Lines 81-84 / 88-91: the `any(...)` generators.  `dflt` is the value the
conditional expression takes when the visit date did not parse (`False` for
TB status 0, `True` for 2/3/4).  `strptime` applied to an unparsable IPT
date key raises, modelled as `Except.error`. -/
def anyIptGe (vd : Option Date) (dflt : Bool) : List String → Except Unit Bool
  | [] => Except.ok false
  | x :: rest =>
    match vd with
    | none => if dflt then Except.ok true else anyIptGe vd dflt rest
    | some v =>
      match parseDate x with
      | none => Except.error ()
      | some xd => if dateLe v xd then Except.ok true else anyIptGe vd dflt rest

/-- Lines 71-93: the TB/IPT cross-check for one encounter. -/
def tbIssues (ipt : List String) (d : String) (e : Encounter) : Except Unit (List TIssue) :=
  match e.tb with
  | none => Except.ok [(Tag.tbMissing, mkTbMissing d)]
  | some tb =>
    let vd := parseDate d
    if tb = "0" then
      match anyIptGe vd false ipt with
      | Except.error _ => Except.error ()
      | Except.ok b => Except.ok (if b then [] else [(Tag.tbNoIpt, mkNoIpt d)])
    else if tb = "2" ∨ tb = "3" ∨ tb = "4" then
      match anyIptGe vd true ipt with
      | Except.error _ => Except.error ()
      | Except.ok b => Except.ok (if b then [(Tag.tbConflict, mkConflict d tb)] else [])
    else Except.ok []

/-- Line 97: `int(reg["duration"] or 0)`. -/
def durOf (reg : Regimen) : Option Int :=
  match reg.duration with
  | none => some 0
  | some s => if s = "" then some 0 else parsePyInt s

/-- Lines 101-104: the `[1,180]` range check: `add_issue` appends only when
the exact message text is not in `seen_issues`. -/
def durRangePart (seen : List String) (d ct : String) (n : Int) : List TIssue × List String :=
  if ¬(1 ≤ n ∧ n ≤ 180) then
    (if seen.contains (mkRangeMsg d ct n) then ([], seen)
     else ([(Tag.durRange, mkRangeMsg d ct n)], mkRangeMsg d ct n :: seen))
  else ([], seen)

/-- Lines 106-108: the `>30`-without-MMD check (plain append, no dedup). -/
def durMMDPart (d : String) (reg : Regimen) (n : Int) : List TIssue :=
  if 30 < n ∧ truthyS reg.mmd = false then [(Tag.durMMD, mkMMD d)] else []

/-- Lines 96-110: the duration checks for one regimen, threading the
`seen_issues` dedup set (which receives exactly the `add_issue` strings). -/
def durIssue (seen : List String) (d : String) (reg : Regimen) : List TIssue × List String :=
  match durOf reg with
  | none => ([(Tag.durNonNum, mkDurWarn d)], seen)
  | some n =>
    ((durRangePart seen d (reg.codetext.getD "") n).1 ++ durMMDPart d reg n,
     (durRangePart seen d (reg.codetext.getD "") n).2)

/-- Lines 95-110: one full pass over the regimen collection. -/
def durPass (regs : List (String × Regimen)) (seen : List String) : List TIssue × List String :=
  match regs with
  | [] => ([], seen)
  | (d, reg) :: rest =>
    let p1 := durIssue seen d reg
    let p2 := durPass rest p1.2
    (p1.1 ++ p2.1, p2.2)

/-- Lines 57-58: missing ARV code. -/
def arvPart (d : String) (e : Encounter) : List TIssue :=
  if truthyS e.arv then [] else [(Tag.arvMissing, mkArvMissing d)]

/-- Lines 60-69: the chronology `try` block. -/
def chronoPart (artStart : Option Date) (d : String) (e : Encounter) : List TIssue :=
  match parseDate d with
  | some vd =>
    (match artStart with
     | some ad =>
       if dateLt vd ad = true ∧ truthyS e.arv = true then
         [(Tag.chronoViolation, mkChrono d ad)]
       else []
     | none => []) ++
    (match artStart with
     | none => [(Tag.artMissingEnc, mkArtMissingEnc d)]
     | some _ => [])
  | none => [(Tag.visitFormat, mkVisitWarn d)]

/-- Lines 52-110: one iteration of the outer encounter loop. -/
def encOne (ipt : List String) (regs : List (String × Regimen)) (artStart : Option Date)
    (seen : List String) (d : String) (e : Encounter) : Except Unit (List TIssue × List String) :=
  if d = "Unknown" then Except.ok ([(Tag.encUnknown, encUnknownMsg)], seen)
  else
    match tbIssues ipt d e with
    | Except.error _ => Except.error ()
    | Except.ok tbPart =>
      Except.ok (arvPart d e ++ chronoPart artStart d e ++ tbPart ++ (durPass regs seen).1,
        (durPass regs seen).2)

/-- Lines 52-110: the outer encounter loop. -/
def encLoop (ipt : List String) (regs : List (String × Regimen)) (artStart : Option Date) :
    List (String × Encounter) → List String → Except Unit (List TIssue × List String)
  | [], seen => Except.ok ([], seen)
  | (d, e) :: rest, seen =>
    match encOne ipt regs artStart seen d e with
    | Except.error _ => Except.error ()
    | Except.ok p1 =>
      match encLoop ipt regs artStart rest p1.2 with
      | Except.error _ => Except.error ()
      | Except.ok p2 => Except.ok (p1.1 ++ p2.1, p2.2)

/-- Lines 113-117: ARV/regimen agreement. -/
def arvMismatchIssues (r : ClinicalRecord) : List TIssue :=
  r.encounters.flatMap (fun kv =>
    match r.regimens.lookup kv.1 with
    | some reg =>
      if reg.rtype = some "ART" then
        match kv.2.arv, reg.code with
        | some a, some c => if a ≠ "" ∧ c ≠ "" ∧ a ≠ c then
            [(Tag.arvMismatch, mkMismatch kv.1 a c)]
          else []
        | _, _ => []
      else []
    | none => [])

/-- Lines 119-121: lab completeness. -/
def labIssues (r : ClinicalRecord) : List TIssue :=
  r.labs.flatMap (fun kv =>
    if truthyS kv.2.test_id && truthyS kv.2.collected then []
    else [(Tag.labIncomplete, mkLab kv.1)])

/-- Lines 126-131: the values the age `try` block needs; `none` exactly when
one of the parses in it raises. -/
def ageInputs (r : ClinicalRecord) : Option (String × Date × Date × Int) :=
  match r.patient.dob, r.patient.report_date, r.patient.age with
  | some dobS, some rptS, some ageS =>
    match parseDate dobS, parseDate rptS, parsePyInt ageS with
    | some dd, some rd, some n => some (ageS, dd, rd, n)
    | _, _, _ => none
  | _, _, _ => none

/-- Lines 129-131: `rpt_dt.year - dob_dt.year - ((rpt.month, rpt.day) <
(dob.month, dob.day))` with Python's lexicographic tuple order. -/
def calcAge (dob rpt : Date) : Int :=
  (rpt.y : Int) - (dob.y : Int) -
    (if rpt.m < dob.m ∨ (rpt.m = dob.m ∧ rpt.d < dob.d) then 1 else 0)

/-- Lines 123-135: age consistency. -/
def ageIssues (r : ClinicalRecord) : List TIssue :=
  match ageInputs r with
  | some (ageS, dd, rd, n) =>
    if 1 < (n - calcAge dd rd).natAbs then [(Tag.ageMismatch, mkAgeMsg ageS (calcAge dd rd))]
    else []
  | none => [(Tag.ageWarn, ageWarnMsg)]

/-- Lines 137-147: height at ART start. -/
def heightArtIssues (r : ClinicalRecord) : List TIssue :=
  match r.patient.height_at_art_start with
  | some hs =>
    if hs ≠ "" then
      match parsePyFloat hs with
      | some v =>
        if floatGt200 v then
          [(Tag.heightArt,
            mkHeightArt (match r.art_start with
                         | some ad => fmtDate ad
                         | none => "Unknown date") (floatRepr v))]
        else []
      | none => []
    else []
  | none => []

/-- Lines 149-157: per-encounter heights. -/
def heightEncIssues (r : ClinicalRecord) : List TIssue :=
  r.encounters.flatMap (fun kv =>
    match kv.2.height with
    | none => []
    | some hs =>
      match parsePyFloat hs with
      | some v => if floatGt200 v then [(Tag.heightEnc, mkHeightEnc kv.1 (floatRepr v))] else []
      | none => [])

/-- `validate_ndr`, with each issue tagged by its emitting statement.
`Except.error ()` models an uncaught exception. -/
def validateT (r : ClinicalRecord) : Except Unit (List TIssue) :=
  match encLoop (iptDates r.regimens) r.regimens r.art_start r.encounters [] with
  | Except.error _ => Except.error ()
  | Except.ok p =>
    Except.ok (invalidIdIssues r ++ hnIssue r ++ artMissingIssue r ++ addressIssues r ++
      p.1 ++ arvMismatchIssues r ++ labIssues r ++ ageIssues r ++ heightArtIssues r ++
      heightEncIssues r)

/-- `validate_ndr` as the source returns it: the plain issue strings. -/
def validate_ndr (r : ClinicalRecord) : Except Unit (List String) :=
  (validateT r).map (fun l => l.map (fun p => p.2))

/-! ## Extractor fragments (src/ndr_extractor.py) -/

/-- One `Identifier` element (lines 31-33): `IDTypeCode` and `IDNumber`
texts, `none` when the child element is absent. -/
structure IdEntry where
  idType : Option String
  idNumber : Option String
  deriving DecidableEq, Repr

/-- The identifier-related extractor state. -/
structure IdExtract where
  hn : Option String
  tb_id : Option String
  other_ids : List (String × String)
  flags : List String
  deriving DecidableEq, Repr

/-- Python dict assignment `d[k] = v` on an ordered association list. -/
def assocSet (l : List (String × String)) (k v : String) : List (String × String) :=
  match l with
  | [] => [(k, v)]
  | (k0, v0) :: rest => if k0 = k then (k0, v) :: rest else (k0, v0) :: assocSet rest k v

/-- Lines 35-43 of the extractor: classify one identifier entry. -/
def processIdentifier (st : IdExtract) (e : IdEntry) : IdExtract :=
  if e.idType = some "HN" then { st with hn := e.idNumber }
  else if e.idType = some "TB" then { st with tb_id := e.idNumber }
  else
    let st1 :=
      if truthyS e.idType && truthyS e.idNumber then
        { st with other_ids := assocSet st.other_ids (e.idType.getD "") (e.idNumber.getD "") }
      else st
    match e.idType with
    | some t =>
      if t ≠ "" ∧ t ≠ "HN" ∧ t ≠ "TB" then
        { st1 with flags := st1.flags ++ ["Invalid identifier: " ++ t] }
      else st1
    | none => st1

/-- Lines 31-43 of the extractor: the identifier loop. -/
def processIdentifiers (es : List IdEntry) : IdExtract :=
  es.foldl processIdentifier ⟨none, none, [], []⟩

/-- The `HIVQuestions` section when present (lines 72-85): the
`ARTStartDate` and `ChildHeightAtARTStart` texts. -/
structure HivQSection where
  artText : Option String
  heightText : Option String
  deriving DecidableEq, Repr

/-- Lines 72-85 of the extractor: returns (`art_start`,
`height_at_art_start`, flags appended by this block). -/
def processHivQ : Option HivQSection → Option Date × Option String × List String
  | none => (none, none, [])
  | some q =>
    let af : Option Date × List String :=
      match q.artText with
      | some s => if s ≠ "" then (parseDate s, []) else (none, ["Missing ARTStartDate"])
      | none => (none, ["Missing ARTStartDate"])
    let h : Option String :=
      match q.heightText with
      | some s => if s ≠ "" then some s else none
      | none => none
    (af.1, h, af.2)

/-! ## Statement-side predicates (phrasing the claims over the record) -/

/-- Some INH-coded regimen has a (parsable) date on or after `vd`. -/
def someIptGeB (regs : List (String × Regimen)) (vd : Date) : Bool :=
  regs.any (fun kv => isINH kv.2 &&
    (match parseDate kv.1 with
     | some dd => dateLe vd dd
     | none => false))

/-- Some INH-coded regimen exists at all. -/
def anyIptB (regs : List (String × Regimen)) : Bool := regs.any (fun kv => isINH kv.2)

/-- Every INH-coded regimen's date key parses. -/
def allInhParseB (regs : List (String × Regimen)) : Bool :=
  regs.all (fun kv => !(isINH kv.2) || (parseDate kv.1).isSome)

/-- No TB/IPT issue of any of the three kinds is present for date `d`. -/
def noTBIssueFor (l : List TIssue) (d : String) : Prop :=
  (Tag.tbMissing, mkTbMissing d) ∉ l ∧ (Tag.tbNoIpt, mkNoIpt d) ∉ l ∧
    ∀ t ∈ (["2", "3", "4"] : List String), (Tag.tbConflict, mkConflict d t) ∉ l

/-- The regimen qualifies for the `>30`-without-MMD issue. -/
def mmdQualB (reg : Regimen) : Bool :=
  match durOf reg with
  | some n => decide (30 < n) && !(truthyS reg.mmd)
  | none => false

/-- The regimen entry `(d, reg)` produces the out-of-range message `m`. -/
def trigOne (m : String) (d : String) (reg : Regimen) : Bool :=
  match durOf reg with
  | some n => !(decide (1 ≤ n ∧ n ≤ 180)) && (mkRangeMsg d (reg.codetext.getD "") n == m)
  | none => false

/-- Some regimen entry produces the out-of-range message `m`. -/
def rangeTrigB (m : String) (regs : List (String × Regimen)) : Bool :=
  regs.any (fun kv => trigOne m kv.1 kv.2)

/-- The tags the encounter loop (lines 52-110) can emit. -/
def encTagB : Tag → Bool
  | Tag.encUnknown | Tag.arvMissing | Tag.chronoViolation | Tag.artMissingEnc
  | Tag.visitFormat | Tag.tbMissing | Tag.tbNoIpt | Tag.tbConflict
  | Tag.durRange | Tag.durMMD | Tag.durNonNum => true
  | _ => false

/-! ## Concrete records used by counterexamples and witnesses -/

/-- C3 failing input: TB status 2 on a parsable visit date together with an
INH regimen whose date key is the `"Unknown"` sentinel. -/
def rC3 : ClinicalRecord :=
  ⟨⟨none, none, none, none, none, none⟩, none, [],
   [("2024-05-01", ⟨none, some "2", none⟩)],
   [("Unknown", ⟨some "Inh", some "", none, some "30", none⟩)], []⟩

/-- C1 counterexample input: TB status 0 on a parsable visit date, and one
INH regimen whose date key does not parse (month 13). -/
def rC1x : ClinicalRecord :=
  ⟨⟨none, none, none, none, none, none⟩, none, [],
   [("2024-03-05", ⟨some "ABC", some "0", none⟩)],
   [("2024-13-40", ⟨some "inh", some "", none, some "10", none⟩)], []⟩

/-- C1 witness input: TB status 0, parsable visit date, no regimens. -/
def rW1 : ClinicalRecord :=
  ⟨⟨none, none, none, none, none, none⟩, none, [],
   [("2024-02-01", ⟨some "AZT", some "0", none⟩)], [], []⟩

/-- C2 witness input: one regimen of duration 200, two referencing
encounters. -/
def rW2 : ClinicalRecord :=
  ⟨⟨none, none, none, none, none, none⟩, none, [],
   [("2024-01-10", ⟨some "TDF", some "1", none⟩), ("2024-02-10", ⟨some "TDF", some "1", none⟩)],
   [("2024-01-10", ⟨some "TDF", some "TLD", none, some "200", none⟩)], []⟩

def lW2 : List TIssue := (validateT rW2).toOption.getD []

/-- C4 witness input: encounter before the ART start date with an ARV code. -/
def rW4 : ClinicalRecord :=
  ⟨⟨none, none, none, none, none, none⟩, some ⟨2023, 6, 1⟩, [],
   [("2023-05-01", ⟨some "AZT", some "1", none⟩)], [], []⟩

def lW4 : List TIssue := (validateT rW4).toOption.getD []

/-- C7 witness input: dob 2000-01-01, report date 2024-01-02, reported age
22. -/
def rW7 : ClinicalRecord :=
  ⟨⟨some "H1", none, some "2000-01-01", some "22", some "2024-01-02", none⟩,
   some ⟨2020, 1, 1⟩, [], [], [], []⟩

def lW7 : List TIssue := (validateT rW7).toOption.getD []

/-- C8 witness input: no HN, a TB identifier supplied. -/
def rW8 : ClinicalRecord :=
  ⟨⟨none, some "TB123", none, none, none, none⟩, none, [], [], [], []⟩

def lW8 : List TIssue := (validateT rW8).toOption.getD []

/-- C9 witness input. -/
def rW9 : ClinicalRecord :=
  ⟨⟨some "HN9", none, none, none, none, none⟩, none,
   ["Missing LGACode in PatientAddress"], [], [], [("2024-04-01", ⟨some "T1", none⟩)]⟩

def lW9 : List String := (validate_ndr rW9).toOption.getD []

/-- C10 witness input: only the `"Unknown"` sentinel encounter, and a
regimen with a wildly out-of-range duration. -/
def rW10 : ClinicalRecord :=
  ⟨⟨none, none, none, none, none, none⟩, none, [],
   [("Unknown", ⟨none, none, none⟩)],
   [("2024-01-01", ⟨some "X", some "", none, some "999", none⟩)], []⟩

/-! ## Helper lemmas: strings -/

theorem msg_inj (p s : String) {a b : String} (h : p ++ a ++ s = p ++ b ++ s) : a = b := by
  have hd := congrArg String.data h
  simp only [String.data_append] at hd
  exact String.ext (List.append_cancel_left (List.append_cancel_right hd))

theorem conflict_inj {d₁ t₁ d₂ t₂ : String} (hl : t₁.length = t₂.length)
    (h : mkConflict d₁ t₁ = mkConflict d₂ t₂) : d₁ = d₂ ∧ t₁ = t₂ := by
  have hd := congrArg String.data h
  simp only [mkConflict, String.data_append] at hd
  have hl2 : t₁.data.length = t₂.data.length := hl
  obtain ⟨h3, h4⟩ := List.append_inj' (List.append_cancel_right hd) hl2
  exact ⟨String.ext (List.append_cancel_left (List.append_cancel_right h3)), String.ext h4⟩

theorem tbMissing_inj {d₁ d₂ : String} (h : mkTbMissing d₁ = mkTbMissing d₂) : d₁ = d₂ :=
  msg_inj "❌ " ": TBStatus is missing." h

theorem noIpt_inj {d₁ d₂ : String} (h : mkNoIpt d₁ = mkNoIpt d₂) : d₁ = d₂ :=
  msg_inj "❌ " ": TBStatus 0 but no IPT (INH) regimen on/after this date." h

theorem mmd_inj {d₁ d₂ : String} (h : mkMMD d₁ = mkMMD d₂) : d₁ = d₂ :=
  msg_inj "❌ " ": Regimen duration >30 days but MMD not specified." h

theorem artMissingEnc_inj {d₁ d₂ : String} (h : mkArtMissingEnc d₁ = mkArtMissingEnc d₂) :
    d₁ = d₂ :=
  msg_inj "❌ " ": ARTStartDate Missing." h

/-! ## Helper lemmas: small validator components -/

theorem invalidId_tag {r : ClinicalRecord} {p : TIssue} (hp : p ∈ invalidIdIssues r) :
    p.1 = Tag.invalidId := by
  simp only [invalidIdIssues, List.mem_map] at hp
  obtain ⟨f, _, rfl⟩ := hp
  rfl

theorem hn_tag {r : ClinicalRecord} {p : TIssue} (hp : p ∈ hnIssue r) : p.1 = Tag.missingHN := by
  unfold hnIssue at hp
  split at hp
  · simp only [List.mem_singleton] at hp
    rw [hp]
  · simp at hp

theorem artG_tag {r : ClinicalRecord} {p : TIssue} (hp : p ∈ artMissingIssue r) :
    p.1 = Tag.artMissingGlobal := by
  unfold artMissingIssue at hp
  split at hp
  · simp only [List.mem_singleton] at hp
    rw [hp]
  · simp at hp

theorem addr_tag {r : ClinicalRecord} {p : TIssue} (hp : p ∈ addressIssues r) :
    p.1 = Tag.addressFlag := by
  simp only [addressIssues, List.mem_map] at hp
  obtain ⟨f, _, rfl⟩ := hp
  rfl

theorem arvMismatch_tag {r : ClinicalRecord} {p : TIssue} (hp : p ∈ arvMismatchIssues r) :
    p.1 = Tag.arvMismatch := by
  simp only [arvMismatchIssues, List.mem_flatMap] at hp
  obtain ⟨kv, _, hm⟩ := hp
  split at hm
  · split at hm
    · split at hm
      · split at hm
        · simp only [List.mem_singleton] at hm
          rw [hm]
        · simp at hm
      · simp at hm
    · simp at hm
  · simp at hm

theorem lab_tag {r : ClinicalRecord} {p : TIssue} (hp : p ∈ labIssues r) :
    p.1 = Tag.labIncomplete := by
  simp only [labIssues, List.mem_flatMap] at hp
  obtain ⟨kv, _, hm⟩ := hp
  split at hm
  · simp at hm
  · simp only [List.mem_singleton] at hm
    rw [hm]

theorem age_tag {r : ClinicalRecord} {p : TIssue} (hp : p ∈ ageIssues r) :
    p.1 = Tag.ageMismatch ∨ p.1 = Tag.ageWarn := by
  unfold ageIssues at hp
  split at hp
  · split at hp
    · simp only [List.mem_singleton] at hp
      rw [hp]
      exact Or.inl rfl
    · simp at hp
  · simp only [List.mem_singleton] at hp
    rw [hp]
    exact Or.inr rfl

theorem heightArt_tag {r : ClinicalRecord} {p : TIssue} (hp : p ∈ heightArtIssues r) :
    p.1 = Tag.heightArt := by
  unfold heightArtIssues at hp
  split at hp
  · split at hp
    · split at hp
      · split at hp
        · simp only [List.mem_singleton] at hp
          rw [hp]
        · simp at hp
      · simp at hp
    · simp at hp
  · simp at hp

theorem heightEnc_tag {r : ClinicalRecord} {p : TIssue} (hp : p ∈ heightEncIssues r) :
    p.1 = Tag.heightEnc := by
  simp only [heightEncIssues, List.mem_flatMap] at hp
  obtain ⟨kv, _, hm⟩ := hp
  split at hm
  · simp at hm
  · split at hm
    · split at hm
      · simp only [List.mem_singleton] at hm
        rw [hm]
      · simp at hm
    · simp at hm

/-! ## Helper lemmas: duration pass -/

theorem durRangePart_mem {seen : List String} {d ct : String} {n : Int} {p : TIssue}
    (hp : p ∈ (durRangePart seen d ct n).1) : p = (Tag.durRange, mkRangeMsg d ct n) := by
  unfold durRangePart at hp
  split at hp
  · split at hp
    · simp at hp
    · simp only [List.mem_singleton] at hp
      exact hp
  · simp at hp

theorem durMMDPart_mem {d : String} {reg : Regimen} {n : Int} {p : TIssue}
    (hp : p ∈ durMMDPart d reg n) : p = (Tag.durMMD, mkMMD d) := by
  unfold durMMDPart at hp
  split at hp
  · simp only [List.mem_singleton] at hp
    exact hp
  · simp at hp

theorem durIssue_tags {seen : List String} {d : String} {reg : Regimen} {p : TIssue}
    (hp : p ∈ (durIssue seen d reg).1) :
    p.1 = Tag.durRange ∨ p.1 = Tag.durMMD ∨ p.1 = Tag.durNonNum := by
  unfold durIssue at hp
  split at hp
  · simp only [List.mem_singleton] at hp
    rw [hp]
    exact Or.inr (Or.inr rfl)
  · rcases List.mem_append.mp hp with h1 | h2
    · rw [durRangePart_mem h1]
      exact Or.inl rfl
    · rw [durMMDPart_mem h2]
      exact Or.inr (Or.inl rfl)

theorem durPass_tags {regs : List (String × Regimen)} {seen : List String} {p : TIssue}
    (hp : p ∈ (durPass regs seen).1) :
    p.1 = Tag.durRange ∨ p.1 = Tag.durMMD ∨ p.1 = Tag.durNonNum := by
  induction regs generalizing seen with
  | nil => simp [durPass] at hp
  | cons kv rest ih =>
    obtain ⟨d, reg⟩ := kv
    simp only [durPass] at hp
    rcases List.mem_append.mp hp with h1 | h2
    · exact durIssue_tags h1
    · exact ih h2

theorem durIssue_seen {seen : List String} {d : String} {reg : Regimen} {m : String} :
    m ∈ (durIssue seen d reg).2 ↔ m ∈ seen ∨ trigOne m d reg = true := by
  unfold durIssue trigOne durRangePart
  cases hdur : durOf reg with
  | none => simp
  | some n =>
    dsimp only
    by_cases hr : ¬(1 ≤ n ∧ n ≤ 180)
    · rw [if_pos hr]
      by_cases hc : seen.contains (mkRangeMsg d (reg.codetext.getD "") n) = true
      · rw [if_pos hc]
        have hmem : mkRangeMsg d (reg.codetext.getD "") n ∈ seen := List.elem_iff.mp hc
        simp only [Bool.and_eq_true, beq_iff_eq, Bool.not_eq_true', decide_eq_false_iff_not]
        constructor
        · exact fun h => Or.inl h
        · rintro (h | h)
          · exact h
          · exact h.2 ▸ hmem
      · rw [if_neg hc]
        simp only [List.mem_cons, Bool.and_eq_true, beq_iff_eq, Bool.not_eq_true',
          decide_eq_false_iff_not]
        constructor
        · rintro (h | h)
          · exact Or.inr ⟨hr, h.symm⟩
          · exact Or.inl h
        · rintro (h | h)
          · exact Or.inr h
          · exact Or.inl h.2.symm
    · rw [if_neg hr]
      have hp := of_not_not hr
      simp [hp]

theorem durPass_seen {regs : List (String × Regimen)} {seen : List String} {m : String} :
    m ∈ (durPass regs seen).2 ↔ m ∈ seen ∨ rangeTrigB m regs = true := by
  induction regs generalizing seen with
  | nil => simp [durPass, rangeTrigB]
  | cons kv rest ih =>
    obtain ⟨d, reg⟩ := kv
    simp only [durPass]
    rw [ih, durIssue_seen]
    simp only [rangeTrigB, List.any_cons, Bool.or_eq_true]
    tauto

theorem durIssue_count_range {seen : List String} {d : String} {reg : Regimen} {m : String} :
    (durIssue seen d reg).1.count (Tag.durRange, m) =
      if m ∈ seen then 0 else if trigOne m d reg = true then 1 else 0 := by
  unfold durIssue trigOne durRangePart
  cases hdur : durOf reg with
  | none =>
    simp [List.count_cons]
  | some n =>
    have hmmd : (durMMDPart d reg n).count (Tag.durRange, m) = 0 := by
      apply List.count_eq_zero.mpr
      intro hmem
      have h := durMMDPart_mem hmem
      simp at h
    dsimp only
    by_cases hr : ¬(1 ≤ n ∧ n ≤ 180)
    · rw [if_pos hr]
      by_cases hc : seen.contains (mkRangeMsg d (reg.codetext.getD "") n) = true
      · rw [if_pos hc]
        have hmsgmem := List.elem_iff.mp hc
        by_cases hms : m ∈ seen
        · simp [hmmd, hms]
        · have hne : (mkRangeMsg d (reg.codetext.getD "") n == m) = false := by
            simp only [beq_eq_false_iff_ne, ne_eq]
            intro he
            exact hms (he ▸ hmsgmem)
          simp [hmmd, hms, hne]
      · rw [if_neg hc]
        have hmsgnot : mkRangeMsg d (reg.codetext.getD "") n ∉ seen := fun hmem =>
          hc (List.elem_iff.mpr hmem)
        by_cases hm : mkRangeMsg d (reg.codetext.getD "") n = m
        · subst hm
          simp [List.count_append, hmmd, List.count_cons, hmsgnot, hr]
        · by_cases hms : m ∈ seen
          · simp [List.count_append, hmmd, List.count_cons, hms, hm]
          · simp [List.count_append, hmmd, List.count_cons, hms, hm]
    · rw [if_neg hr]
      have hp := of_not_not hr
      have h1 : ¬(n < 1) := not_lt.mpr hp.1
      have h2 : ¬(180 < n) := not_lt.mpr hp.2
      simp [hmmd, h1, h2]

theorem durPass_count_range {regs : List (String × Regimen)} {seen : List String} {m : String} :
    (durPass regs seen).1.count (Tag.durRange, m) =
      if m ∈ seen then 0 else if rangeTrigB m regs = true then 1 else 0 := by
  induction regs generalizing seen with
  | nil => simp [durPass, rangeTrigB]
  | cons kv rest ih =>
    obtain ⟨d, reg⟩ := kv
    simp only [durPass, List.count_append]
    rw [durIssue_count_range, ih]
    by_cases hms : m ∈ seen
    · have hms2 : m ∈ (durIssue seen d reg).2 := durIssue_seen.mpr (Or.inl hms)
      simp [hms, hms2]
    · by_cases ht : trigOne m d reg = true
      · have hms2 : m ∈ (durIssue seen d reg).2 := durIssue_seen.mpr (Or.inr ht)
        have htrig : rangeTrigB m ((d, reg) :: rest) = true := by
          simp [rangeTrigB, List.any_cons, ht]
        simp [hms, ht, hms2, htrig]
      · have hms2 : m ∉ (durIssue seen d reg).2 := by
          intro h
          rcases durIssue_seen.mp h with h1 | h1
          · exact hms h1
          · exact ht h1
        have ht2 : trigOne m d reg = false := by
          revert ht
          cases trigOne m d reg <;> simp
        have htrig : rangeTrigB m ((d, reg) :: rest) = rangeTrigB m rest := by
          simp [rangeTrigB, List.any_cons, ht2]
        simp [hms, ht2, hms2, htrig]

theorem durIssue_count_mmd {seen : List String} {d' d : String} {reg : Regimen} :
    (durIssue seen d' reg).1.count (Tag.durMMD, mkMMD d) =
      if d' = d ∧ mmdQualB reg = true then 1 else 0 := by
  unfold durIssue
  cases hdur : durOf reg with
  | none =>
    have hq : mmdQualB reg = false := by unfold mmdQualB; rw [hdur]
    simp [List.count_cons, hq]
  | some n =>
    dsimp only
    rw [List.count_append]
    have hrange : (durRangePart seen d' (reg.codetext.getD "") n).1.count (Tag.durMMD, mkMMD d) = 0 := by
      apply List.count_eq_zero.mpr
      intro hmem
      have h := durRangePart_mem hmem
      simp at h
    rw [hrange]
    have hqeq : mmdQualB reg = (decide (30 < n) && !(truthyS reg.mmd)) := by
      unfold mmdQualB
      rw [hdur]
    unfold durMMDPart
    by_cases hq : 30 < n ∧ truthyS reg.mmd = false
    · rw [if_pos hq]
      have hqt : mmdQualB reg = true := by rw [hqeq]; simp [hq.1, hq.2]
      by_cases hd : d' = d
      · subst hd
        simp [List.count_cons, hqt]
      · have hne : ((Tag.durMMD, mkMMD d') : TIssue) ≠ (Tag.durMMD, mkMMD d) := by
          intro h
          exact hd (mmd_inj (congrArg Prod.snd h))
        simp [List.count_cons, hne, hd]
    · rw [if_neg hq]
      have hqf : mmdQualB reg = false := by
        rw [hqeq]
        by_cases h30 : 30 < n
        · have : truthyS reg.mmd = true := by
            by_contra hcon
            exact hq ⟨h30, by revert hcon; cases truthyS reg.mmd <;> simp⟩
          simp [this]
        · simp [h30]
      simp [hqf]

theorem durPass_count_mmd {regs : List (String × Regimen)} {seen : List String} {d : String} :
    (durPass regs seen).1.count (Tag.durMMD, mkMMD d) =
      regs.countP (fun kv => decide (kv.1 = d) && mmdQualB kv.2) := by
  induction regs generalizing seen with
  | nil => simp [durPass]
  | cons kv rest ih =>
    obtain ⟨d', reg⟩ := kv
    simp only [durPass, List.count_append, List.countP_cons]
    rw [durIssue_count_mmd, ih]
    by_cases h : d' = d ∧ mmdQualB reg = true
    · simp [h.1, h.2]
      omega
    · have h2 : (decide (d' = d) && mmdQualB reg) ≠ true := by
        intro hc
        simp only [Bool.and_eq_true, decide_eq_true_eq] at hc
        exact h hc
      simp [h, h2]

theorem countP_key_qual {regs : List (String × Regimen)} {d : String} {reg : Regimen}
    (hnd : (regs.map Prod.fst).Nodup) (hmem : (d, reg) ∈ regs) (hq : mmdQualB reg = true) :
    regs.countP (fun kv => decide (kv.1 = d) && mmdQualB kv.2) = 1 := by
  induction regs with
  | nil => cases hmem
  | cons kv rest ih =>
    simp only [List.map_cons, List.nodup_cons] at hnd
    rcases List.mem_cons.mp hmem with heq | hmem2
    · rw [← heq] at hnd ⊢
      simp only [List.countP_cons]
      have hz : rest.countP (fun kv => decide (kv.1 = d) && mmdQualB kv.2) = 0 := by
        apply List.countP_eq_zero.mpr
        intro kv2 hkv2 hc
        simp only [Bool.and_eq_true, decide_eq_true_eq] at hc
        have hmm : kv2.1 ∈ rest.map Prod.fst := List.mem_map_of_mem Prod.fst hkv2
        rw [hc.1] at hmm
        exact hnd.1 hmm
      simp [hz, hq]
    · have hkvne : ¬(kv.1 = d) := by
        intro h
        exact hnd.1 (h ▸ List.mem_map_of_mem Prod.fst hmem2)
      simp only [List.countP_cons]
      rw [ih hnd.2 hmem2]
      simp [hkvne]

theorem key_unique {β : Type} {es : List (String × β)} (hnd : (es.map Prod.fst).Nodup)
    {d : String} {a b : β} (ha : (d, a) ∈ es) (hb : (d, b) ∈ es) : a = b := by
  induction es with
  | nil => cases ha
  | cons kv rest ih =>
    simp only [List.map_cons, List.nodup_cons] at hnd
    rcases List.mem_cons.mp ha with h1 | h1
    · rcases List.mem_cons.mp hb with h2 | h2
      · rw [← h1] at h2
        exact (Prod.mk.injEq _ _ _ _ ▸ h2.symm).2
      · exact absurd (List.mem_map_of_mem Prod.fst h2) (by rw [← h1] at hnd; exact hnd.1)
    · rcases List.mem_cons.mp hb with h2 | h2
      · exact absurd (List.mem_map_of_mem Prod.fst h1) (by rw [← h2] at hnd; exact hnd.1)
      · exact ih hnd.2 h1 h2

/-! ## Helper lemmas: the TB/IPT generators -/

theorem anyIptGe_vdnone {dflt : Bool} (ipt : List String) :
    anyIptGe none dflt ipt = Except.ok (dflt && !ipt.isEmpty) := by
  induction ipt with
  | nil => simp [anyIptGe]
  | cons x rest ih =>
    cases dflt with
    | true => simp [anyIptGe]
    | false => simpa [anyIptGe] using ih

theorem anyIptGe_parse {vd : Date} {dflt : Bool} {ipt : List String}
    (hp : ∀ x ∈ ipt, (parseDate x).isSome = true) :
    anyIptGe (some vd) dflt ipt =
      Except.ok (ipt.any (fun x =>
        match parseDate x with
        | some xd => dateLe vd xd
        | none => false)) := by
  induction ipt with
  | nil => simp [anyIptGe]
  | cons x rest ih =>
    obtain ⟨xd, hxd⟩ := Option.isSome_iff_exists.mp (hp x (List.mem_cons_self x rest))
    have ihres := ih (fun y hy => hp y (List.mem_cons_of_mem x hy))
    simp only [anyIptGe, hxd, List.any_cons]
    cases hle : dateLe vd xd with
    | true => simp
    | false => simpa using ihres

/-! ## Helper lemmas: tbIssues -/

theorem tbIssues_missing {ipt : List String} {d : String} {e : Encounter} (h : e.tb = none) :
    tbIssues ipt d e = Except.ok [(Tag.tbMissing, mkTbMissing d)] := by
  unfold tbIssues
  rw [h]

theorem tbIssues_one {ipt : List String} {d : String} {e : Encounter} (h : e.tb = some "1") :
    tbIssues ipt d e = Except.ok [] := by
  unfold tbIssues
  rw [h]
  dsimp only
  rw [if_neg (by decide), if_neg (by decide)]

theorem tbIssues_zero {ipt : List String} {d : String} {e : Encounter} {b : Bool}
    (h : e.tb = some "0") (ha : anyIptGe (parseDate d) false ipt = Except.ok b) :
    tbIssues ipt d e = Except.ok (if b then [] else [(Tag.tbNoIpt, mkNoIpt d)]) := by
  unfold tbIssues
  rw [h]
  dsimp only
  rw [if_pos rfl, ha]

theorem tbIssues_234 {ipt : List String} {d : String} {e : Encounter} {t : String} {b : Bool}
    (h : e.tb = some t) (ht : t = "2" ∨ t = "3" ∨ t = "4")
    (ha : anyIptGe (parseDate d) true ipt = Except.ok b) :
    tbIssues ipt d e = Except.ok (if b then [(Tag.tbConflict, mkConflict d t)] else []) := by
  have h0 : ¬(t = "0") := by rcases ht with rfl | rfl | rfl <;> decide
  unfold tbIssues
  rw [h]
  dsimp only
  rw [if_neg h0, if_pos ht, ha]

theorem tbIssues_spec {ipt : List String} {d : String} {e : Encounter} {tl : List TIssue}
    (h : tbIssues ipt d e = Except.ok tl) :
    ∀ p ∈ tl, (p = (Tag.tbMissing, mkTbMissing d) ∧ e.tb = none) ∨
      (p = (Tag.tbNoIpt, mkNoIpt d) ∧ e.tb = some "0") ∨
      (∃ t, p = (Tag.tbConflict, mkConflict d t) ∧ e.tb = some t ∧
        (t = "2" ∨ t = "3" ∨ t = "4")) := by
  intro p hp
  unfold tbIssues at h
  cases htb : e.tb with
  | none =>
    rw [htb] at h
    rw [← Except.ok.inj h] at hp
    simp only [List.mem_singleton] at hp
    exact Or.inl ⟨hp, rfl⟩
  | some tb =>
    rw [htb] at h
    dsimp only at h
    by_cases h0 : tb = "0"
    · subst h0
      rw [if_pos rfl] at h
      cases ha : anyIptGe (parseDate d) false ipt with
      | error u => rw [ha] at h; cases h
      | ok b =>
        rw [ha] at h
        cases b with
        | true => rw [← Except.ok.inj h] at hp; simp at hp
        | false =>
          rw [← Except.ok.inj h] at hp
          simp at hp
          exact Or.inr (Or.inl ⟨hp, rfl⟩)
    · rw [if_neg h0] at h
      by_cases h234 : tb = "2" ∨ tb = "3" ∨ tb = "4"
      · rw [if_pos h234] at h
        cases ha : anyIptGe (parseDate d) true ipt with
        | error u => rw [ha] at h; cases h
        | ok b =>
          rw [ha] at h
          cases b with
          | true =>
            rw [← Except.ok.inj h] at hp
            simp at hp
            exact Or.inr (Or.inr ⟨tb, hp, rfl, h234⟩)
          | false => rw [← Except.ok.inj h] at hp; simp at hp
      · rw [if_neg h234] at h
        rw [← Except.ok.inj h] at hp
        simp at hp

/-! ## Helper lemmas: iptDates -/

theorem iptDates_any (regs : List (String × Regimen)) (g : String → Bool) :
    (iptDates regs).any g = regs.any (fun kv => isINH kv.2 && g kv.1) := by
  induction regs with
  | nil => rfl
  | cons kv rest ih =>
    unfold iptDates at ih ⊢
    simp only [List.filter_cons, List.any_cons]
    cases h : isINH kv.2 with
    | true => simp [h, ih]
    | false => simp [h, ih]

theorem iptDates_parse {regs : List (String × Regimen)} (h : allInhParseB regs = true) :
    ∀ x ∈ iptDates regs, (parseDate x).isSome = true := by
  intro x hx
  unfold iptDates at hx
  simp only [List.mem_map] at hx
  obtain ⟨kv, hkv, rfl⟩ := hx
  have h2 := List.mem_filter.mp hkv
  have h3 := (List.all_eq_true.mp h) kv h2.1
  simp only [h2.2, Bool.not_true, Bool.false_or] at h3
  exact h3

theorem iptDates_ge (regs : List (String × Regimen)) (vd : Date) :
    (iptDates regs).any (fun x =>
      match parseDate x with
      | some xd => dateLe vd xd
      | none => false) = someIptGeB regs vd := by
  rw [iptDates_any]
  rfl

theorem iptDates_empty (regs : List (String × Regimen)) :
    (iptDates regs).isEmpty = !(anyIptB regs) := by
  unfold iptDates anyIptB
  induction regs with
  | nil => rfl
  | cons kv rest ih =>
    simp only [List.filter_cons, List.any_cons]
    cases h : isINH kv.2 with
    | true => simp [h]
    | false => simpa [h] using ih

/-! ## Helper lemmas: the encounter loop -/

theorem parse_unknown : parseDate "Unknown" = none := by decide

theorem encOne_unknown {ipt : List String} {regs : List (String × Regimen)} {a : Option Date}
    {seen : List String} {e : Encounter} :
    encOne ipt regs a seen "Unknown" e = Except.ok ([(Tag.encUnknown, encUnknownMsg)], seen) := by
  unfold encOne
  rw [if_pos rfl]

theorem encOne_ok {ipt : List String} {regs : List (String × Regimen)} {a : Option Date}
    {seen : List String} {d : String} {e : Encounter} {tl : List TIssue}
    (hd : ¬(d = "Unknown")) (htb : tbIssues ipt d e = Except.ok tl) :
    encOne ipt regs a seen d e =
      Except.ok (arvPart d e ++ chronoPart a d e ++ tl ++ (durPass regs seen).1,
        (durPass regs seen).2) := by
  unfold encOne
  rw [if_neg hd, htb]

theorem encLoop_cons_ok {ipt : List String} {regs : List (String × Regimen)} {a : Option Date}
    {d : String} {e : Encounter} {rest : List (String × Encounter)} {seen : List String}
    {L : List TIssue} {sF : List String}
    (h : encLoop ipt regs a ((d, e) :: rest) seen = Except.ok (L, sF)) :
    ∃ l1 s1 l2, encOne ipt regs a seen d e = Except.ok (l1, s1) ∧
      encLoop ipt regs a rest s1 = Except.ok (l2, sF) ∧ L = l1 ++ l2 := by
  unfold encLoop at h
  cases h1 : encOne ipt regs a seen d e with
  | error u => rw [h1] at h; cases h
  | ok p1 =>
    obtain ⟨l1, s1⟩ := p1
    rw [h1] at h
    dsimp only at h
    cases h2 : encLoop ipt regs a rest s1 with
    | error u => rw [h2] at h; cases h
    | ok p2 =>
      obtain ⟨l2, s2⟩ := p2
      rw [h2] at h
      dsimp only at h
      have h3 := Except.ok.inj h
      have h4 : l1 ++ l2 = L := congrArg Prod.fst h3
      have h5 : s2 = sF := congrArg Prod.snd h3
      exact ⟨l1, s1, l2, rfl, h5 ▸ h2, h4.symm⟩

theorem encLoop_mem {ipt : List String} {regs : List (String × Regimen)} {a : Option Date}
    {es : List (String × Encounter)} {seen : List String} {L : List TIssue} {sF : List String}
    {d : String} {e : Encounter}
    (hm : (d, e) ∈ es) (h : encLoop ipt regs a es seen = Except.ok (L, sF)) :
    ∃ s₀ l1 s1, encOne ipt regs a s₀ d e = Except.ok (l1, s1) ∧ ∀ p ∈ l1, p ∈ L := by
  induction es generalizing seen L with
  | nil => cases hm
  | cons kv rest ih =>
    obtain ⟨d2, e2⟩ := kv
    obtain ⟨l1, s1, l2, h1, h2, rfl⟩ := encLoop_cons_ok h
    rcases List.mem_cons.mp hm with heq | hmem
    · injection heq with hd he
      subst hd
      subst he
      exact ⟨seen, l1, s1, h1, fun p hp => List.mem_append_left _ hp⟩
    · obtain ⟨s₀, l1b, s1b, h3, h4⟩ := ih hmem h2
      exact ⟨s₀, l1b, s1b, h3, fun p hp => List.mem_append_right _ (h4 p hp)⟩

theorem arvPart_mem {d : String} {e : Encounter} {p : TIssue} (hp : p ∈ arvPart d e) :
    p = (Tag.arvMissing, mkArvMissing d) := by
  unfold arvPart at hp
  split at hp
  · simp at hp
  · simp only [List.mem_singleton] at hp
    exact hp

theorem chronoPart_mem {a : Option Date} {d : String} {e : Encounter} {p : TIssue}
    (hp : p ∈ chronoPart a d e) :
    p.1 = Tag.chronoViolation ∨ p.1 = Tag.artMissingEnc ∨ p.1 = Tag.visitFormat := by
  unfold chronoPart at hp
  split at hp
  · rcases List.mem_append.mp hp with h1 | h2
    · split at h1
      · split at h1
        · simp only [List.mem_singleton] at h1
          rw [h1]
          exact Or.inl rfl
        · simp at h1
      · simp at h1
    · split at h2
      · simp only [List.mem_singleton] at h2
        rw [h2]
        exact Or.inr (Or.inl rfl)
      · simp at h2
  · simp only [List.mem_singleton] at hp
    rw [hp]
    exact Or.inr (Or.inr rfl)

theorem count_zero_of_tags {l : List TIssue} {q : TIssue}
    (h : ∀ p ∈ l, p.1 ≠ q.1) : l.count q = 0 := by
  apply List.count_eq_zero.mpr
  intro hm
  exact (h q hm) rfl

theorem encOne_tags {ipt : List String} {regs : List (String × Regimen)} {a : Option Date}
    {seen : List String} {d : String} {e : Encounter} {c : List TIssue} {s2 : List String}
    (h : encOne ipt regs a seen d e = Except.ok (c, s2)) : ∀ p ∈ c, encTagB p.1 = true := by
  intro p hp
  unfold encOne at h
  by_cases hd : d = "Unknown"
  · rw [if_pos hd] at h
    have hc : [(Tag.encUnknown, encUnknownMsg)] = c := congrArg Prod.fst (Except.ok.inj h)
    rw [← hc] at hp
    simp only [List.mem_singleton] at hp
    rw [hp]
    rfl
  · rw [if_neg hd] at h
    cases htb : tbIssues ipt d e with
    | error u => rw [htb] at h; cases h
    | ok tl =>
      rw [htb] at h
      dsimp only at h
      have hc : arvPart d e ++ chronoPart a d e ++ tl ++ (durPass regs seen).1 = c :=
        congrArg Prod.fst (Except.ok.inj h)
      rw [← hc] at hp
      rcases List.mem_append.mp hp with hp1 | hpd
      · rcases List.mem_append.mp hp1 with hp2 | hpt
        · rcases List.mem_append.mp hp2 with hpa | hpc
          · rw [arvPart_mem hpa]
            rfl
          · rcases chronoPart_mem hpc with hh | hh | hh <;> rw [hh] <;> rfl
        · rcases tbIssues_spec htb p hpt with ⟨hh, _⟩ | ⟨hh, _⟩ | ⟨t, hh, _, _⟩ <;>
            rw [hh] <;> rfl
      · rcases durPass_tags hpd with hh | hh | hh <;> rw [hh] <;> rfl

theorem encLoop_tags {ipt : List String} {regs : List (String × Regimen)} {a : Option Date}
    {es : List (String × Encounter)} {seen : List String} {L : List TIssue} {sF : List String}
    (h : encLoop ipt regs a es seen = Except.ok (L, sF)) : ∀ p ∈ L, encTagB p.1 = true := by
  induction es generalizing seen L with
  | nil =>
    unfold encLoop at h
    have hc : ([] : List TIssue) = L := congrArg Prod.fst (Except.ok.inj h)
    rw [← hc]
    intro p hp
    cases hp
  | cons kv rest ih =>
    obtain ⟨d2, e2⟩ := kv
    obtain ⟨l1, s1, l2, h1, h2, rfl⟩ := encLoop_cons_ok h
    intro p hp
    rcases List.mem_append.mp hp with hp1 | hp2
    · exact encOne_tags h1 p hp1
    · exact ih h2 p hp2

theorem encLoop_count {ipt : List String} {regs : List (String × Regimen)} {a : Option Date}
    {q : TIssue} {g : String × Encounter → Nat}
    (hg : ∀ seen d e c s2, encOne ipt regs a seen d e = Except.ok (c, s2) →
      c.count q = g (d, e)) :
    ∀ {es : List (String × Encounter)} {seen : List String} {L : List TIssue} {sF : List String},
      encLoop ipt regs a es seen = Except.ok (L, sF) → L.count q = (es.map g).sum := by
  intro es
  induction es with
  | nil =>
    intro seen L sF h
    unfold encLoop at h
    have hc : ([] : List TIssue) = L := congrArg Prod.fst (Except.ok.inj h)
    rw [← hc]
    rfl
  | cons kv rest ih =>
    intro seen L sF h
    obtain ⟨d2, e2⟩ := kv
    obtain ⟨l1, s1, l2, h1, h2, rfl⟩ := encLoop_cons_ok h
    rw [List.count_append, hg _ _ _ _ _ h1, ih h2]
    simp

theorem encOne_count_artME {ipt : List String} {regs : List (String × Regimen)}
    {seen : List String} {d2 : String} {e2 : Encounter} {c : List TIssue} {s2 : List String}
    {d : String}
    (hok : encOne ipt regs none seen d2 e2 = Except.ok (c, s2)) :
    c.count (Tag.artMissingEnc, mkArtMissingEnc d) =
      if d2 = d ∧ (parseDate d2).isSome = true then 1 else 0 := by
  unfold encOne at hok
  by_cases hd : d2 = "Unknown"
  · rw [if_pos hd] at hok
    have hc : [(Tag.encUnknown, encUnknownMsg)] = c := congrArg Prod.fst (Except.ok.inj hok)
    rw [← hc]
    have hcond : ¬(d2 = d ∧ (parseDate d2).isSome = true) := by
      rintro ⟨h3, h4⟩
      rw [hd, parse_unknown] at h4
      cases h4
    rw [if_neg hcond]
    simp [List.count_cons]
  · rw [if_neg hd] at hok
    cases htb : tbIssues ipt d2 e2 with
    | error u => rw [htb] at hok; cases hok
    | ok tl =>
      rw [htb] at hok
      dsimp only at hok
      have hc : arvPart d2 e2 ++ chronoPart none d2 e2 ++ tl ++ (durPass regs seen).1 = c :=
        congrArg Prod.fst (Except.ok.inj hok)
      rw [← hc]
      have harv : (arvPart d2 e2).count (Tag.artMissingEnc, mkArtMissingEnc d) = 0 :=
        count_zero_of_tags (fun p hp => by rw [arvPart_mem hp]; simp)
      have htb0 : tl.count (Tag.artMissingEnc, mkArtMissingEnc d) = 0 :=
        count_zero_of_tags (fun p hp => by
          rcases tbIssues_spec htb p hp with ⟨hh, _⟩ | ⟨hh, _⟩ | ⟨t, hh, _, _⟩ <;>
            rw [hh] <;> simp)
      have hdur : ((durPass regs seen).1).count (Tag.artMissingEnc, mkArtMissingEnc d) = 0 :=
        count_zero_of_tags (fun p hp => by
          rcases durPass_tags hp with hh | hh | hh <;> rw [hh] <;> simp)
      simp only [List.count_append, harv, htb0, hdur, Nat.add_zero, Nat.zero_add]
      unfold chronoPart
      cases hpd : parseDate d2 with
      | none =>
        rw [if_neg (show ¬(d2 = d ∧ (none : Option Date).isSome = true) from by
          rintro ⟨h3, h4⟩; cases h4)]
        dsimp only
        simp [List.count_cons]
      | some vd =>
        dsimp only
        by_cases hdd : d2 = d
        · subst hdd
          rw [if_pos ⟨rfl, rfl⟩]
          simp [List.count_cons]
        · have hne : ((Tag.artMissingEnc, mkArtMissingEnc d2) : TIssue) ≠
              (Tag.artMissingEnc, mkArtMissingEnc d) := by
            intro hcon
            exact hdd (artMissingEnc_inj (congrArg Prod.snd hcon))
          rw [if_neg (by rintro ⟨h3, h4⟩; exact hdd h3)]
          simp [List.count_cons, hne]

theorem encOne_count_mmd {ipt : List String} {regs : List (String × Regimen)} {a : Option Date}
    {seen : List String} {d2 : String} {e2 : Encounter} {c : List TIssue} {s2 : List String}
    {d : String}
    (hok : encOne ipt regs a seen d2 e2 = Except.ok (c, s2)) :
    c.count (Tag.durMMD, mkMMD d) =
      if d2 = "Unknown" then 0
      else regs.countP (fun kv => decide (kv.1 = d) && mmdQualB kv.2) := by
  by_cases hd : d2 = "Unknown"
  · unfold encOne at hok
    rw [if_pos hd] at hok
    have hc : [(Tag.encUnknown, encUnknownMsg)] = c := congrArg Prod.fst (Except.ok.inj hok)
    rw [← hc, if_pos hd]
    simp [List.count_cons]
  · unfold encOne at hok
    rw [if_neg hd] at hok
    cases htb : tbIssues ipt d2 e2 with
    | error u => rw [htb] at hok; cases hok
    | ok tl =>
      rw [htb] at hok
      dsimp only at hok
      have hc : arvPart d2 e2 ++ chronoPart a d2 e2 ++ tl ++ (durPass regs seen).1 = c :=
        congrArg Prod.fst (Except.ok.inj hok)
      rw [← hc, if_neg hd]
      have harv : (arvPart d2 e2).count (Tag.durMMD, mkMMD d) = 0 :=
        count_zero_of_tags (fun p hp => by rw [arvPart_mem hp]; simp)
      have hchr : (chronoPart a d2 e2).count (Tag.durMMD, mkMMD d) = 0 :=
        count_zero_of_tags (fun p hp => by
          rcases chronoPart_mem hp with hh | hh | hh <;> rw [hh] <;> simp)
      have htb0 : tl.count (Tag.durMMD, mkMMD d) = 0 :=
        count_zero_of_tags (fun p hp => by
          rcases tbIssues_spec htb p hp with ⟨hh, _⟩ | ⟨hh, _⟩ | ⟨t, hh, _, _⟩ <;>
            rw [hh] <;> simp)
      simp only [List.count_append, harv, hchr, htb0, Nat.add_zero, Nat.zero_add]
      exact durPass_count_mmd

/-! ## Helper lemmas: extractor identifier loop -/

theorem assocSet_self (l : List (String × String)) (k v : String) :
    ∃ w, (assocSet l k v).lookup k = some w := by
  induction l with
  | nil => exact ⟨v, by simp [assocSet, List.lookup]⟩
  | cons kv rest ih =>
    obtain ⟨k0, v0⟩ := kv
    unfold assocSet
    by_cases h : k0 = k
    · rw [if_pos h]
      subst h
      exact ⟨v, by simp [List.lookup]⟩
    · rw [if_neg h]
      obtain ⟨w, hw⟩ := ih
      refine ⟨w, ?_⟩
      have hne : (k == k0) = false := beq_eq_false_iff_ne.mpr (fun hh => h hh.symm)
      simp only [List.lookup, hne]
      exact hw

theorem assocSet_pres {l : List (String × String)} {t : String} {w : String} (k v : String)
    (h : l.lookup t = some w) : ∃ w2, (assocSet l k v).lookup t = some w2 := by
  by_cases ht : k = t
  · subst ht
    exact assocSet_self l k v
  · induction l with
    | nil => simp [List.lookup] at h
    | cons kv rest ih =>
      obtain ⟨k0, v0⟩ := kv
      unfold assocSet
      simp only [List.lookup] at h
      by_cases h0 : k0 = k
      · rw [if_pos h0]
        have hne : (t == k0) = false := by
          apply beq_eq_false_iff_ne.mpr
          intro hh
          rw [h0] at hh
          exact ht hh.symm
        rw [hne] at h
        refine ⟨w, ?_⟩
        simp only [List.lookup, hne]
        exact h
      · rw [if_neg h0]
        cases hk : (t == k0) with
        | true =>
          rw [hk] at h
          exact ⟨v0, by simp only [List.lookup, hk]⟩
        | false =>
          rw [hk] at h
          obtain ⟨w2, hw2⟩ := ih h
          refine ⟨w2, ?_⟩
          simp only [List.lookup, hk]
          exact hw2

theorem processIdentifier_est {st : IdExtract} {e : IdEntry} {t : String}
    (ht : e.idType = some t) (h1 : ¬(t = "")) (h2 : ¬(t = "HN")) (h3 : ¬(t = "TB")) :
    (processIdentifier st e).flags = st.flags ++ ["Invalid identifier: " ++ t] ∧
    (∀ v, e.idNumber = some v → ¬(v = "") →
      (processIdentifier st e).other_ids = assocSet st.other_ids t v) := by
  have hHN : ¬(e.idType = some "HN") := by rw [ht]; intro hx; exact h2 (Option.some.inj hx)
  have hTB : ¬(e.idType = some "TB") := by rw [ht]; intro hx; exact h3 (Option.some.inj hx)
  unfold processIdentifier
  rw [if_neg hHN, if_neg hTB, ht]
  dsimp only
  rw [if_pos ⟨h1, h2, h3⟩]
  constructor
  · split <;> rfl
  · intro v hv hv1
    rw [hv]
    have htr : (truthyS (some t) && truthyS (some v)) = true := by
      simp [truthyS, h1, hv1]
    rw [if_pos htr]
    rfl

theorem processIdentifier_flags_mono {st : IdExtract} {e : IdEntry} {m : String}
    (h : m ∈ st.flags) : m ∈ (processIdentifier st e).flags := by
  unfold processIdentifier
  by_cases h1 : e.idType = some "HN"
  · rw [if_pos h1]
    exact h
  · rw [if_neg h1]
    by_cases h2 : e.idType = some "TB"
    · rw [if_pos h2]
      exact h
    · rw [if_neg h2]
      cases h3 : e.idType with
      | none =>
        dsimp only
        split <;> exact h
      | some t =>
        dsimp only
        split
        · apply List.mem_append_left
          split <;> exact h
        · split <;> exact h

theorem processIdentifier_key_mono {st : IdExtract} {e : IdEntry} {t : String}
    (h : ∃ w, st.other_ids.lookup t = some w) :
    ∃ w, (processIdentifier st e).other_ids.lookup t = some w := by
  obtain ⟨w, hw⟩ := h
  unfold processIdentifier
  by_cases h1 : e.idType = some "HN"
  · rw [if_pos h1]
    exact ⟨w, hw⟩
  · rw [if_neg h1]
    by_cases h2 : e.idType = some "TB"
    · rw [if_pos h2]
      exact ⟨w, hw⟩
    · rw [if_neg h2]
      cases h3 : e.idType with
      | none =>
        dsimp only
        split
        · exact assocSet_pres _ _ hw
        · exact ⟨w, hw⟩
      | some t2 =>
        dsimp only
        split
        · refine (?_ : ∃ w2, _)
          split
          · exact assocSet_pres _ _ hw
          · exact ⟨w, hw⟩
        · split
          · exact assocSet_pres _ _ hw
          · exact ⟨w, hw⟩

theorem foldl_flags_mono {es : List IdEntry} {st : IdExtract} {m : String}
    (h : m ∈ st.flags) : m ∈ (es.foldl processIdentifier st).flags := by
  induction es generalizing st with
  | nil => exact h
  | cons x xs ih => exact ih (processIdentifier_flags_mono h)

theorem foldl_key_mono {es : List IdEntry} {st : IdExtract} {t : String}
    (h : ∃ w, st.other_ids.lookup t = some w) :
    ∃ w, ((es.foldl processIdentifier st).other_ids).lookup t = some w := by
  induction es generalizing st with
  | nil => exact h
  | cons x xs ih => exact ih (processIdentifier_key_mono h)

theorem processIdentifiers_aux {t : String} :
    ∀ (es : List IdEntry) (st : IdExtract) (e : IdEntry), e ∈ es → e.idType = some t →
      ¬(t = "") → ¬(t = "HN") → ¬(t = "TB") →
      ("Invalid identifier: " ++ t) ∈ (es.foldl processIdentifier st).flags ∧
      (truthyS e.idNumber = true →
        ∃ v, ((es.foldl processIdentifier st).other_ids).lookup t = some v) := by
  intro es
  induction es with
  | nil =>
    intro st e hm
    cases hm
  | cons x xs ih =>
    intro st e hm ht h1 h2 h3
    simp only [List.foldl_cons]
    rcases List.mem_cons.mp hm with heq | hmem
    · subst heq
      obtain ⟨hf, ho⟩ := @processIdentifier_est st e t ht h1 h2 h3
      constructor
      · apply foldl_flags_mono
        rw [hf]
        exact List.mem_append_right _ (by simp)
      · intro htr
        cases hv : e.idNumber with
        | none =>
          rw [hv] at htr
          simp [truthyS] at htr
        | some v =>
          have hv1 : ¬(v = "") := by
            rw [hv] at htr
            simp only [truthyS, Bool.not_eq_true'] at htr
            exact beq_eq_false_iff_ne.mp htr
          apply foldl_key_mono
          rw [ho v hv hv1]
          exact assocSet_self _ _ _
    · exact ih _ e hmem ht h1 h2 h3

/-! ## Claim C5 -/

/-- C5 (counterexample): an identifier entry with unknown type `"XX"` but no
`IDNumber` raises the invalid-identifier flag yet stores nothing in
`other_ids`, so the claim that every such entry is *both* stored and flagged
is false. -/
theorem C5_cex :
    ("Invalid identifier: XX") ∈ (processIdentifiers [⟨some "XX", none⟩]).flags ∧
    (processIdentifiers [⟨some "XX", none⟩]).other_ids.lookup "XX" = none := by
  constructor
  · decide
  · decide

/-- C5 (amended): for every identifier entry whose non-empty type code is
neither `"HN"` nor `"TB"`, the extractor appends the flag
`"Invalid identifier: <type>"`, and stores the entry in the
`other_identifiers` mapping when (and only in the branch where) its
identifier number is also truthy (present and non-empty). -/
theorem C5_thm (es : List IdEntry) (e : IdEntry) (hm : e ∈ es) (t : String)
    (ht : e.idType = some t) (h1 : ¬(t = "")) (h2 : ¬(t = "HN")) (h3 : ¬(t = "TB")) :
    ("Invalid identifier: " ++ t) ∈ (processIdentifiers es).flags ∧
    (truthyS e.idNumber = true →
      ∃ v, ((processIdentifiers es).other_ids).lookup t = some v) :=
  processIdentifiers_aux es ⟨none, none, [], []⟩ e hm ht h1 h2 h3

/-- C5 (witness): a concrete entry with type `"XX"` and number `"123"` is
flagged and stored. -/
theorem C5_witness :
    ("Invalid identifier: XX") ∈ (processIdentifiers [⟨some "XX", some "123"⟩]).flags ∧
    (∃ v, ((processIdentifiers [⟨some "XX", some "123"⟩]).other_ids).lookup "XX" = some v) := by
  have h := C5_thm [⟨some "XX", some "123"⟩] ⟨some "XX", some "123"⟩ (by decide) "XX"
    rfl (by decide) (by decide) (by decide)
  exact ⟨h.1, h.2 (by decide)⟩

/-! ## Claim C6 -/

/-- C6 (counterexample): when the `HIVQuestions` section is absent, the
extractor leaves `art_start` and `height_at_art_start` unset but appends NO
validation flag at all — in particular not `"Missing ARTStartDate"` — so the
claim that a named flag is appended for the missing ART-start is false. -/
theorem C6_cex :
    (processHivQ none).1 = none ∧ (processHivQ none).2.1 = none ∧
    ("Missing ARTStartDate") ∉ (processHivQ none).2.2 := by
  refine ⟨rfl, rfl, ?_⟩
  decide

/-- C6 (amended): when the `HIVQuestions` section is absent, extraction
succeeds with `art_start_date` and `height_at_art_start` left unset and no
validation flag appended; the `"Missing ARTStartDate"` flag is appended only
when the section is present but its `ARTStartDate` field is missing or
empty. -/
theorem C6_thm :
    processHivQ none = (none, none, []) ∧
    (∀ q : HivQSection, truthyS q.artText = false →
      ("Missing ARTStartDate") ∈ (processHivQ (some q)).2.2) := by
  constructor
  · rfl
  · intro q hq
    have hval : q.artText = none ∨ q.artText = some "" := by
      cases ha : q.artText with
      | none => exact Or.inl rfl
      | some s =>
        right
        rw [ha] at hq
        unfold truthyS at hq
        dsimp only at hq
        cases hb : (s == "") with
        | true => exact congrArg some (beq_iff_eq.mp hb)
        | false =>
          rw [hb] at hq
          simp at hq
    unfold processHivQ
    dsimp only
    rcases hval with h | h <;> rw [h] <;> simp

/-- C6 (witness): the amended claim at the concrete section with no
`ARTStartDate` text. -/
theorem C6_witness :
    processHivQ none = (none, none, []) ∧
    ("Missing ARTStartDate") ∈ (processHivQ (some ⟨none, none⟩)).2.2 :=
  ⟨C6_thm.1, C6_thm.2 ⟨none, none⟩ rfl⟩

/-! ## Claim C3 -/

/-- C3: `validate_ndr` raises an uncaught exception (`Except.error`) on a
record with only malformed data values: an INH-coded regimen keyed by the
`"Unknown"` sentinel together with an encounter carrying a parsable visit
date and TB status `"2"` makes the bare `strptime` inside the TB/IPT
`any(...)` generator raise, so the validator does not degrade this
malformed value to a warning. -/
theorem C3_raises : validate_ndr rC3 = Except.error () := rfl

/-! ## Claim C9 -/

/-- C9: the validator is a pure function of its input record: running it
twice on the same record yields the same outcome, and any two issue lists
it returns for the same record are identical and identically ordered. -/
theorem C9_thm : ∀ r : ClinicalRecord, validate_ndr r = validate_ndr r ∧
    ∀ l₁ l₂, validate_ndr r = Except.ok l₁ → validate_ndr r = Except.ok l₂ → l₁ = l₂ := by
  intro r
  refine ⟨rfl, ?_⟩
  intro l₁ l₂ h₁ h₂
  rw [h₁] at h₂
  exact Except.ok.inj h₂

/-- C9 (witness): the determinism theorem applied at a concrete record. -/
theorem C9_witness : validate_ndr rW9 = Except.ok lW9 ∧ lW9 = lW9 :=
  ⟨rfl, (C9_thm rW9).2 lW9 lW9 rfl rfl⟩

/-! ## Claim C10 -/

/-- C10: when the encounters mapping is empty or holds only the
`"Unknown"`-keyed sentinel entry, the validator returns normally and emits
no regimen-duration issue of any kind (no `[1,180]` range issue, no
`>30`-without-MMD issue, no non-numeric-duration warning), whatever the
regimens contain. -/
theorem C10_thm (r : ClinicalRecord) (hU : ∀ kv ∈ r.encounters, kv.1 = "Unknown") :
    ∃ l, validateT r = Except.ok l ∧
      ∀ p ∈ l, p.1 ≠ Tag.durRange ∧ p.1 ≠ Tag.durMMD ∧ p.1 ≠ Tag.durNonNum := by
  have hloop : ∀ es : List (String × Encounter), (∀ kv ∈ es, kv.1 = "Unknown") → ∀ seen,
      ∃ L, encLoop (iptDates r.regimens) r.regimens r.art_start es seen = Except.ok (L, seen) ∧
        ∀ p ∈ L, p.1 = Tag.encUnknown := by
    intro es
    induction es with
    | nil =>
      intro _ seen
      exact ⟨[], rfl, by simp⟩
    | cons kv rest ih =>
      intro hU2 seen
      obtain ⟨d2, e2⟩ := kv
      have hd : d2 = "Unknown" := hU2 (d2, e2) (List.mem_cons_self _ _)
      subst hd
      obtain ⟨L2, hL2, hT2⟩ := ih (fun kv hk => hU2 kv (List.mem_cons_of_mem _ hk)) seen
      refine ⟨(Tag.encUnknown, encUnknownMsg) :: L2, ?_, ?_⟩
      · unfold encLoop
        rw [encOne_unknown]
        dsimp only
        rw [hL2]
        rfl
      · intro p hp
        rcases List.mem_cons.mp hp with h | h
        · rw [h]
        · exact hT2 p h
  obtain ⟨L, hL, hT⟩ := hloop r.encounters hU []
  refine ⟨invalidIdIssues r ++ hnIssue r ++ artMissingIssue r ++ addressIssues r ++ L ++
    arvMismatchIssues r ++ labIssues r ++ ageIssues r ++ heightArtIssues r ++
    heightEncIssues r, ?_, ?_⟩
  · unfold validateT
    rw [hL]
  · intro p hp
    have htag : p.1 = Tag.invalidId ∨ p.1 = Tag.missingHN ∨ p.1 = Tag.artMissingGlobal ∨
        p.1 = Tag.addressFlag ∨ p.1 = Tag.encUnknown ∨ p.1 = Tag.arvMismatch ∨
        p.1 = Tag.labIncomplete ∨ p.1 = Tag.ageMismatch ∨ p.1 = Tag.ageWarn ∨
        p.1 = Tag.heightArt ∨ p.1 = Tag.heightEnc := by
      simp only [List.mem_append] at hp
      rcases hp with ((((((((h | h) | h) | h) | h) | h) | h) | h) | h) | h
      · exact Or.inl (invalidId_tag h)
      · exact Or.inr (Or.inl (hn_tag h))
      · exact Or.inr (Or.inr (Or.inl (artG_tag h)))
      · exact Or.inr (Or.inr (Or.inr (Or.inl (addr_tag h))))
      · exact Or.inr (Or.inr (Or.inr (Or.inr (Or.inl (hT p h)))))
      · exact Or.inr (Or.inr (Or.inr (Or.inr (Or.inr (Or.inl (arvMismatch_tag h))))))
      · exact Or.inr (Or.inr (Or.inr (Or.inr (Or.inr (Or.inr (Or.inl (lab_tag h)))))))
      · rcases age_tag h with hh | hh
        · exact Or.inr (Or.inr (Or.inr (Or.inr (Or.inr (Or.inr (Or.inr (Or.inl hh)))))))
        · exact Or.inr (Or.inr (Or.inr (Or.inr (Or.inr (Or.inr (Or.inr (Or.inr (Or.inl hh))))))))
      · exact Or.inr (Or.inr (Or.inr (Or.inr (Or.inr (Or.inr (Or.inr (Or.inr (Or.inr
          (Or.inl (heightArt_tag h))))))))))
      · exact Or.inr (Or.inr (Or.inr (Or.inr (Or.inr (Or.inr (Or.inr (Or.inr (Or.inr
          (Or.inr (heightEnc_tag h))))))))))
    refine ⟨?_, ?_, ?_⟩ <;>
      (rcases htag with h | h | h | h | h | h | h | h | h | h | h <;> rw [h] <;> decide)

/-- C10 (witness): the theorem at a record with an `"Unknown"`-only
encounter map and a regimen of duration 999. -/
theorem C10_witness : ∃ l, validateT rW10 = Except.ok l ∧
    ∀ p ∈ l, p.1 ≠ Tag.durRange ∧ p.1 ≠ Tag.durMMD ∧ p.1 ≠ Tag.durNonNum :=
  C10_thm rW10 (by decide)

/-! ## Claim C8 -/

theorem filter_nil_of_tags {l : List TIssue} {t : Tag}
    (h : ∀ p ∈ l, p.1 ≠ t) : l.filter (fun p => p.1 == t) = [] := by
  apply List.filter_eq_nil_iff.mpr
  intro p hp
  simp [h p hp]

/-- C8: whenever `hospital_number` is unset and the validator returns
normally, its output contains exactly one missing-HN identifier issue, and
that issue names the supplied TB identifier (or `None` in its absence). -/
theorem C8_thm (r : ClinicalRecord) (l : List TIssue) (h : validateT r = Except.ok l)
    (hhn : r.patient.hn = none) :
    l.filter (fun p => p.1 == Tag.missingHN) = [(Tag.missingHN, mkHNMsg r.patient.tb_id)] := by
  unfold validateT at h
  cases hE : encLoop (iptDates r.regimens) r.regimens r.art_start r.encounters [] with
  | error u => rw [hE] at h; cases h
  | ok p =>
    obtain ⟨L, sF⟩ := p
    rw [hE] at h
    dsimp only at h
    have hl : invalidIdIssues r ++ hnIssue r ++ artMissingIssue r ++ addressIssues r ++ L ++
        arvMismatchIssues r ++ labIssues r ++ ageIssues r ++ heightArtIssues r ++
        heightEncIssues r = l := Except.ok.inj h
    rw [← hl]
    simp only [List.filter_append]
    have e1 : (invalidIdIssues r).filter (fun p => p.1 == Tag.missingHN) = [] :=
      filter_nil_of_tags (fun p hp => by rw [invalidId_tag hp]; decide)
    have e2 : (hnIssue r).filter (fun p => p.1 == Tag.missingHN) =
        [(Tag.missingHN, mkHNMsg r.patient.tb_id)] := by
      unfold hnIssue
      rw [hhn]
      rfl
    have e3 : (artMissingIssue r).filter (fun p => p.1 == Tag.missingHN) = [] :=
      filter_nil_of_tags (fun p hp => by rw [artG_tag hp]; decide)
    have e4 : (addressIssues r).filter (fun p => p.1 == Tag.missingHN) = [] :=
      filter_nil_of_tags (fun p hp => by rw [addr_tag hp]; decide)
    have e5 : L.filter (fun p => p.1 == Tag.missingHN) = [] :=
      filter_nil_of_tags (fun p hp => by
        have := encLoop_tags hE p hp
        intro hc
        rw [hc] at this
        simp [encTagB] at this)
    have e6 : (arvMismatchIssues r).filter (fun p => p.1 == Tag.missingHN) = [] :=
      filter_nil_of_tags (fun p hp => by rw [arvMismatch_tag hp]; decide)
    have e7 : (labIssues r).filter (fun p => p.1 == Tag.missingHN) = [] :=
      filter_nil_of_tags (fun p hp => by rw [lab_tag hp]; decide)
    have e8 : (ageIssues r).filter (fun p => p.1 == Tag.missingHN) = [] :=
      filter_nil_of_tags (fun p hp => by rcases age_tag hp with hh | hh <;> rw [hh] <;> decide)
    have e9 : (heightArtIssues r).filter (fun p => p.1 == Tag.missingHN) = [] :=
      filter_nil_of_tags (fun p hp => by rw [heightArt_tag hp]; decide)
    have e10 : (heightEncIssues r).filter (fun p => p.1 == Tag.missingHN) = [] :=
      filter_nil_of_tags (fun p hp => by rw [heightEnc_tag hp]; decide)
    rw [e1, e2, e3, e4, e5, e6, e7, e8, e9, e10]
    rfl

/-- C8 (witness): the theorem at a concrete record with no HN and TB
identifier `"TB123"`. -/
theorem C8_witness : lW8.filter (fun p => p.1 == Tag.missingHN) =
    [(Tag.missingHN, mkHNMsg (some "TB123"))] :=
  C8_thm rW8 lW8 rfl rfl

/-! ## Claim C7 -/

/-- C7: when date of birth, report date and reported age all parse, the
computed age is the year difference decremented by one when the birthday has
not yet been reached in the report year (`calcAge`), and the age-mismatch
issue carrying both values is emitted exactly when
`|reported − computed| > 1`; on any parse failure the single generic
"unable to validate age" warning is emitted instead. -/
theorem C7_thm (r : ClinicalRecord) (l : List TIssue) (h : validateT r = Except.ok l) :
    (∀ ageS dd rd n, ageInputs r = some (ageS, dd, rd, n) →
      (((Tag.ageMismatch, mkAgeMsg ageS (calcAge dd rd)) ∈ l) ↔
        1 < (n - calcAge dd rd).natAbs)) ∧
    (ageInputs r = none → (Tag.ageWarn, ageWarnMsg) ∈ l) := by
  unfold validateT at h
  cases hE : encLoop (iptDates r.regimens) r.regimens r.art_start r.encounters [] with
  | error u => rw [hE] at h; cases h
  | ok p =>
    obtain ⟨L, sF⟩ := p
    rw [hE] at h
    dsimp only at h
    have hl : invalidIdIssues r ++ hnIssue r ++ artMissingIssue r ++ addressIssues r ++ L ++
        arvMismatchIssues r ++ labIssues r ++ ageIssues r ++ heightArtIssues r ++
        heightEncIssues r = l := Except.ok.inj h
    have hnm : ∀ p : TIssue, p.1 = Tag.ageMismatch → p ∈ l → p ∈ ageIssues r := by
      intro p hptag hpl
      rw [← hl] at hpl
      simp only [List.mem_append] at hpl
      rcases hpl with ((((((((h1 | h1) | h1) | h1) | h1) | h1) | h1) | h1) | h1) | h1
      · rw [invalidId_tag h1] at hptag; cases hptag
      · rw [hn_tag h1] at hptag; cases hptag
      · rw [artG_tag h1] at hptag; cases hptag
      · rw [addr_tag h1] at hptag; cases hptag
      · have h2 := encLoop_tags hE p h1
        rw [hptag] at h2
        simp [encTagB] at h2
      · rw [arvMismatch_tag h1] at hptag; cases hptag
      · rw [lab_tag h1] at hptag; cases hptag
      · exact h1
      · rw [heightArt_tag h1] at hptag; cases hptag
      · rw [heightEnc_tag h1] at hptag; cases hptag
    have hin : ∀ p : TIssue, p ∈ ageIssues r → p ∈ l := by
      intro p hp
      rw [← hl]
      simp only [List.mem_append]
      exact Or.inl (Or.inl (Or.inr hp))
    constructor
    · intro ageS dd rd n hsome
      constructor
      · intro hmem
        by_contra hnot
        have h0 : ageIssues r = [] := by
          unfold ageIssues
          rw [hsome]
          dsimp only
          rw [if_neg hnot]
        have h2 := hnm _ rfl hmem
        rw [h0] at h2
        cases h2
      · intro hgt
        apply hin
        unfold ageIssues
        rw [hsome]
        dsimp only
        rw [if_pos hgt]
        simp
    · intro hnone
      apply hin
      unfold ageIssues
      rw [hnone]
      simp

/-- C7 (witness): dob 2000-01-01, report date 2024-01-02, reported age 22
(computed 24, difference 2) makes the mismatch issue appear. -/
theorem C7_witness : (Tag.ageMismatch, mkAgeMsg "22" 24) ∈ lW7 :=
  ((C7_thm rW7 lW7 rfl).1 "22" ⟨2000, 1, 1⟩ ⟨2024, 1, 2⟩ 22 rfl).mpr (by decide)

/-! ## Claim C2 -/

theorem encLoop_count_range {ipt : List String} {regs : List (String × Regimen)}
    {a : Option Date} {m : String} :
    ∀ {es : List (String × Encounter)} {seen : List String} {L : List TIssue} {sF : List String},
      encLoop ipt regs a es seen = Except.ok (L, sF) →
      L.count (Tag.durRange, m) =
        if m ∈ seen then 0
        else if rangeTrigB m regs && es.any (fun kv => !(kv.1 == "Unknown")) then 1 else 0 := by
  intro es
  induction es with
  | nil =>
    intro seen L sF h
    unfold encLoop at h
    have hc : ([] : List TIssue) = L := congrArg Prod.fst (Except.ok.inj h)
    rw [← hc]
    simp
  | cons kv rest ih =>
    intro seen L sF h
    obtain ⟨d2, e2⟩ := kv
    obtain ⟨l1, s1, l2, h1, h2, rfl⟩ := encLoop_cons_ok h
    rw [List.count_append, ih h2]
    by_cases hd2 : d2 = "Unknown"
    · subst hd2
      rw [encOne_unknown] at h1
      have hl1 : [(Tag.encUnknown, encUnknownMsg)] = l1 := congrArg Prod.fst (Except.ok.inj h1)
      have hs1 : seen = s1 := congrArg Prod.snd (Except.ok.inj h1)
      rw [← hl1, ← hs1]
      have hz : ([(Tag.encUnknown, encUnknownMsg)] : List TIssue).count (Tag.durRange, m) = 0 :=
        count_zero_of_tags (fun p hp => by
          simp only [List.mem_singleton] at hp
          rw [hp]
          simp)
      rw [hz, Nat.zero_add]
      rfl
    · unfold encOne at h1
      rw [if_neg hd2] at h1
      cases htb : tbIssues ipt d2 e2 with
      | error u => rw [htb] at h1; cases h1
      | ok tl =>
        rw [htb] at h1
        dsimp only at h1
        have hl1 : arvPart d2 e2 ++ chronoPart a d2 e2 ++ tl ++ (durPass regs seen).1 = l1 :=
          congrArg Prod.fst (Except.ok.inj h1)
        have hs1 : (durPass regs seen).2 = s1 := congrArg Prod.snd (Except.ok.inj h1)
        rw [← hl1, ← hs1]
        have harv : (arvPart d2 e2).count (Tag.durRange, m) = 0 :=
          count_zero_of_tags (fun p hp => by rw [arvPart_mem hp]; simp)
        have hchr : (chronoPart a d2 e2).count (Tag.durRange, m) = 0 :=
          count_zero_of_tags (fun p hp => by
            rcases chronoPart_mem hp with hh | hh | hh <;> rw [hh] <;> simp)
        have htb0 : tl.count (Tag.durRange, m) = 0 :=
          count_zero_of_tags (fun p hp => by
            rcases tbIssues_spec htb p hp with ⟨hh, _⟩ | ⟨hh, _⟩ | ⟨t, hh, _, _⟩ <;>
              rw [hh] <;> simp)
        simp only [List.count_append, harv, hchr, htb0, Nat.zero_add]
        rw [durPass_count_range]
        have hany : (((d2, e2) :: rest).any (fun kv => !(kv.1 == "Unknown"))) = true := by
          simp [List.any_cons, hd2]
        by_cases hms : m ∈ seen
        · have hms2 : m ∈ (durPass regs seen).2 := durPass_seen.mpr (Or.inl hms)
          simp [hms, hms2, hany]
        · by_cases htr : rangeTrigB m regs = true
          · have hms2 : m ∈ (durPass regs seen).2 := durPass_seen.mpr (Or.inr htr)
            simp [hms, hms2, htr, hany]
          · have hms2 : m ∉ (durPass regs seen).2 := by
              intro hx
              rcases durPass_seen.mp hx with hx1 | hx1
              · exact hms hx1
              · exact htr hx1
            have htr2 : rangeTrigB m regs = false := by
              revert htr
              cases rangeTrigB m regs <;> simp
            simp [hms, hms2, htr2, hany]

theorem sum_unknown_indicator (K : Nat) (es : List (String × Encounter)) :
    (es.map (fun kv => if kv.1 = "Unknown" then 0 else K)).sum =
      K * (es.filter (fun kv => !(kv.1 == "Unknown"))).length := by
  induction es with
  | nil => simp
  | cons kv rest ih =>
    simp only [List.map_cons, List.sum_cons, List.filter_cons]
    by_cases h : kv.1 = "Unknown"
    · simp [h, ih]
    · simp only [if_neg h, ih]
      have hb : (!(kv.1 == "Unknown")) = true := by simp [h]
      rw [hb]
      simp [Nat.mul_succ, Nat.mul_add]
      omega

/-- C2: in a run that returns normally and reaches the per-encounter regimen
pass at least once, every regimen whose duration parses to an integer
outside `[1, 180]` yields its out-of-range message exactly once in the whole
output (deduplicated by exact message text), while every regimen with parsed
duration `> 30` and no truthy `multi_month_dispensing` yields the MMD issue
once per encounter iteration that reaches the regimen pass (once per
non-`"Unknown"` encounter; not deduplicated). -/
theorem C2_thm (r : ClinicalRecord) (l : List TIssue) (h : validateT r = Except.ok l)
    (hndr : (r.regimens.map Prod.fst).Nodup)
    (hne : r.encounters.any (fun kv => !(kv.1 == "Unknown")) = true) :
    (∀ d reg n, (d, reg) ∈ r.regimens → durOf reg = some n → ¬(1 ≤ n ∧ n ≤ 180) →
      l.count (Tag.durRange, mkRangeMsg d (reg.codetext.getD "") n) = 1) ∧
    (∀ d reg n, (d, reg) ∈ r.regimens → durOf reg = some n → 30 < n →
      truthyS reg.mmd = false →
      l.count (Tag.durMMD, mkMMD d) =
        (r.encounters.filter (fun kv => !(kv.1 == "Unknown"))).length) := by
  unfold validateT at h
  cases hE : encLoop (iptDates r.regimens) r.regimens r.art_start r.encounters [] with
  | error u => rw [hE] at h; cases h
  | ok p =>
    obtain ⟨L, sF⟩ := p
    rw [hE] at h
    dsimp only at h
    have hl : invalidIdIssues r ++ hnIssue r ++ artMissingIssue r ++ addressIssues r ++ L ++
        arvMismatchIssues r ++ labIssues r ++ ageIssues r ++ heightArtIssues r ++
        heightEncIssues r = l := Except.ok.inj h
    have hzero : ∀ q : TIssue, (q.1 = Tag.durRange ∨ q.1 = Tag.durMMD) →
        l.count q = L.count q := by
      intro q hq
      rw [← hl]
      simp only [List.count_append]
      have z1 : (invalidIdIssues r).count q = 0 :=
        count_zero_of_tags (fun p hp => by
          rw [invalidId_tag hp]; rcases hq with hh | hh <;> rw [hh] <;> simp)
      have z2 : (hnIssue r).count q = 0 :=
        count_zero_of_tags (fun p hp => by
          rw [hn_tag hp]; rcases hq with hh | hh <;> rw [hh] <;> simp)
      have z3 : (artMissingIssue r).count q = 0 :=
        count_zero_of_tags (fun p hp => by
          rw [artG_tag hp]; rcases hq with hh | hh <;> rw [hh] <;> simp)
      have z4 : (addressIssues r).count q = 0 :=
        count_zero_of_tags (fun p hp => by
          rw [addr_tag hp]; rcases hq with hh | hh <;> rw [hh] <;> simp)
      have z6 : (arvMismatchIssues r).count q = 0 :=
        count_zero_of_tags (fun p hp => by
          rw [arvMismatch_tag hp]; rcases hq with hh | hh <;> rw [hh] <;> simp)
      have z7 : (labIssues r).count q = 0 :=
        count_zero_of_tags (fun p hp => by
          rw [lab_tag hp]; rcases hq with hh | hh <;> rw [hh] <;> simp)
      have z8 : (ageIssues r).count q = 0 :=
        count_zero_of_tags (fun p hp => by
          rcases age_tag hp with ha | ha <;> rw [ha] <;> rcases hq with hh | hh <;>
            rw [hh] <;> simp)
      have z9 : (heightArtIssues r).count q = 0 :=
        count_zero_of_tags (fun p hp => by
          rw [heightArt_tag hp]; rcases hq with hh | hh <;> rw [hh] <;> simp)
      have z10 : (heightEncIssues r).count q = 0 :=
        count_zero_of_tags (fun p hp => by
          rw [heightEnc_tag hp]; rcases hq with hh | hh <;> rw [hh] <;> simp)
      rw [z1, z2, z3, z4, z6, z7, z8, z9, z10]
      omega
    constructor
    · intro d reg n hmem hdur hrange
      rw [hzero _ (Or.inl rfl)]
      rw [encLoop_count_range hE]
      have htrig : rangeTrigB (mkRangeMsg d (reg.codetext.getD "") n) r.regimens = true := by
        apply List.any_eq_true.mpr
        refine ⟨(d, reg), hmem, ?_⟩
        unfold trigOne
        rw [hdur]
        simp [hrange]
      simp [htrig, hne]
    · intro d reg n hmem hdur h30 hmmd
      rw [hzero _ (Or.inr rfl)]
      have hqual : mmdQualB reg = true := by
        unfold mmdQualB
        rw [hdur]
        simp [h30, hmmd]
      have hK : r.regimens.countP (fun kv => decide (kv.1 = d) && mmdQualB kv.2) = 1 :=
        countP_key_qual hndr hmem hqual
      have hcount := encLoop_count
        (q := (Tag.durMMD, mkMMD d))
        (g := fun kv => if kv.1 = "Unknown" then 0
          else r.regimens.countP (fun kv => decide (kv.1 = d) && mmdQualB kv.2))
        (fun seen d2 e2 c s2 hok => encOne_count_mmd hok) hE
      rw [hcount, sum_unknown_indicator, hK]
      omega

/-- C2 (witness): one regimen of duration 200 referenced by two encounters:
the out-of-range issue appears once, the MMD issue twice. -/
theorem C2_witness :
    lW2.count (Tag.durRange, mkRangeMsg "2024-01-10" "TLD" 200) = 1 ∧
    lW2.count (Tag.durMMD, mkMMD "2024-01-10") = 2 := by
  have h := C2_thm rW2 lW2 rfl (by decide) (by decide)
  constructor
  · exact h.1 "2024-01-10" ⟨some "TDF", some "TLD", none, some "200", none⟩ 200
      (by decide) (by decide) (by decide)
  · have h2 := h.2 "2024-01-10" ⟨some "TDF", some "TLD", none, some "200", none⟩ 200
      (by decide) (by decide) (by decide) (by decide)
    exact h2.trans (by decide)

/-! ## Claim C4 -/

theorem validateT_ok {r : ClinicalRecord} {l : List TIssue} (h : validateT r = Except.ok l) :
    ∃ L sF,
      encLoop (iptDates r.regimens) r.regimens r.art_start r.encounters [] =
        Except.ok (L, sF) ∧
      l = invalidIdIssues r ++ hnIssue r ++ artMissingIssue r ++ addressIssues r ++ L ++
        arvMismatchIssues r ++ labIssues r ++ ageIssues r ++ heightArtIssues r ++
        heightEncIssues r := by
  unfold validateT at h
  cases hE : encLoop (iptDates r.regimens) r.regimens r.art_start r.encounters [] with
  | error u => rw [hE] at h; cases h
  | ok p =>
    obtain ⟨L, sF⟩ := p
    rw [hE] at h
    dsimp only at h
    exact ⟨L, sF, rfl, (Except.ok.inj h).symm⟩

theorem outside_count_zero (r : ClinicalRecord) {q : TIssue} (hq : encTagB q.1 = true) :
    (invalidIdIssues r).count q = 0 ∧ (hnIssue r).count q = 0 ∧
    (artMissingIssue r).count q = 0 ∧ (addressIssues r).count q = 0 ∧
    (arvMismatchIssues r).count q = 0 ∧ (labIssues r).count q = 0 ∧
    (ageIssues r).count q = 0 ∧ (heightArtIssues r).count q = 0 ∧
    (heightEncIssues r).count q = 0 := by
  have hne : ∀ t : Tag, encTagB t = false → q.1 ≠ t := by
    intro t htf hc
    rw [hc] at hq
    rw [htf] at hq
    cases hq
  refine ⟨?_, ?_, ?_, ?_, ?_, ?_, ?_, ?_, ?_⟩
  · exact count_zero_of_tags (fun p hp => by
      rw [invalidId_tag hp]; exact (hne Tag.invalidId rfl).symm)
  · exact count_zero_of_tags (fun p hp => by
      rw [hn_tag hp]; exact (hne Tag.missingHN rfl).symm)
  · exact count_zero_of_tags (fun p hp => by
      rw [artG_tag hp]; exact (hne Tag.artMissingGlobal rfl).symm)
  · exact count_zero_of_tags (fun p hp => by
      rw [addr_tag hp]; exact (hne Tag.addressFlag rfl).symm)
  · exact count_zero_of_tags (fun p hp => by
      rw [arvMismatch_tag hp]; exact (hne Tag.arvMismatch rfl).symm)
  · exact count_zero_of_tags (fun p hp => by
      rw [lab_tag hp]; exact (hne Tag.labIncomplete rfl).symm)
  · exact count_zero_of_tags (fun p hp => by
      rcases age_tag hp with hh | hh
      · rw [hh]; exact (hne Tag.ageMismatch rfl).symm
      · rw [hh]; exact (hne Tag.ageWarn rfl).symm)
  · exact count_zero_of_tags (fun p hp => by
      rw [heightArt_tag hp]; exact (hne Tag.heightArt rfl).symm)
  · exact count_zero_of_tags (fun p hp => by
      rw [heightEnc_tag hp]; exact (hne Tag.heightEnc rfl).symm)

theorem count_eq_encLoop {r : ClinicalRecord} {l L : List TIssue}
    (hl : l = invalidIdIssues r ++ hnIssue r ++ artMissingIssue r ++ addressIssues r ++ L ++
      arvMismatchIssues r ++ labIssues r ++ ageIssues r ++ heightArtIssues r ++
      heightEncIssues r)
    {q : TIssue} (hq : encTagB q.1 = true) :
    l.count q = L.count q := by
  obtain ⟨z1, z2, z3, z4, z5, z6, z7, z8, z9⟩ := outside_count_zero r hq
  rw [hl]
  simp only [List.count_append, z1, z2, z3, z4, z5, z6, z7, z8, z9]
  omega

theorem sum_key_parse_indicator {es : List (String × Encounter)} {d : String} {e : Encounter}
    (hnd : (es.map Prod.fst).Nodup) (hmem : (d, e) ∈ es)
    (hsome : (parseDate d).isSome = true) :
    (es.map (fun kv => if kv.1 = d ∧ (parseDate kv.1).isSome = true then 1 else 0)).sum = 1 := by
  induction es with
  | nil => cases hmem
  | cons kv rest ih =>
    simp only [List.map_cons, List.sum_cons]
    simp only [List.map_cons, List.nodup_cons] at hnd
    rcases List.mem_cons.mp hmem with heq | hmem2
    · rw [← heq] at hnd ⊢
      rw [if_pos ⟨rfl, hsome⟩]
      have hz : (rest.map
          (fun kv => if kv.1 = d ∧ (parseDate kv.1).isSome = true then 1 else 0)).sum = 0 := by
        apply List.sum_eq_zero
        intro x hx
        simp only [List.mem_map] at hx
        obtain ⟨kv2, hkv2, rfl⟩ := hx
        rw [if_neg]
        rintro ⟨hk, _⟩
        apply hnd.1
        have hmm : kv2.1 ∈ rest.map Prod.fst := List.mem_map_of_mem Prod.fst hkv2
        rw [hk] at hmm
        exact hmm
      rw [hz]
    · have hkne : ¬(kv.1 = d) := by
        intro hc
        apply hnd.1
        have hmm : (d, e).1 ∈ rest.map Prod.fst := List.mem_map_of_mem Prod.fst hmem2
        rw [hc]
        exact hmm
      rw [if_neg (by rintro ⟨hk, _⟩; exact hkne hk), ih hnd.2 hmem2]

/-- C4: for every encounter whose visit date parses: if the ART start date
is set, the visit date strictly precedes it and the encounter's ARV code is
present, the chronology-violation issue naming the ART start date is
emitted; if the ART start date is unset, the per-encounter "ARTStartDate
Missing" issue for that date appears exactly once per such encounter, in
addition to the single global step-2 issue. -/
theorem C4_thm (r : ClinicalRecord) (l : List TIssue) (h : validateT r = Except.ok l)
    (hnd : (r.encounters.map Prod.fst).Nodup) :
    (∀ d e vd ad, (d, e) ∈ r.encounters → parseDate d = some vd → r.art_start = some ad →
      dateLt vd ad = true → truthyS e.arv = true →
      (Tag.chronoViolation, mkChrono d ad) ∈ l) ∧
    (r.art_start = none →
      (∀ d e vd, (d, e) ∈ r.encounters → parseDate d = some vd →
        l.count (Tag.artMissingEnc, mkArtMissingEnc d) = 1) ∧
      l.count (Tag.artMissingGlobal, artMissingGlobalMsg) = 1) := by
  obtain ⟨L, sF, hE, hl⟩ := validateT_ok h
  constructor
  · intro d e vd ad hmem hvd hart hlt harv
    obtain ⟨s₀, l1, s1, hone, hsub⟩ := encLoop_mem hmem hE
    have hdU : ¬(d = "Unknown") := by
      intro hc
      rw [hc, parse_unknown] at hvd
      cases hvd
    unfold encOne at hone
    rw [if_neg hdU] at hone
    cases htb : tbIssues (iptDates r.regimens) d e with
    | error u => rw [htb] at hone; cases hone
    | ok tl =>
      rw [htb] at hone
      dsimp only at hone
      have hl1 : arvPart d e ++ chronoPart r.art_start d e ++ tl ++
          (durPass r.regimens s₀).1 = l1 := congrArg Prod.fst (Except.ok.inj hone)
      have hchr : (Tag.chronoViolation, mkChrono d ad) ∈ chronoPart r.art_start d e := by
        unfold chronoPart
        rw [hvd, hart]
        dsimp only
        rw [if_pos ⟨hlt, harv⟩]
        simp
      have hin1 : (Tag.chronoViolation, mkChrono d ad) ∈ l1 := by
        rw [← hl1]
        simp only [List.mem_append]
        exact Or.inl (Or.inl (Or.inr hchr))
      rw [hl]
      simp only [List.mem_append]
      exact Or.inl (Or.inl (Or.inl (Or.inl (Or.inl (Or.inr (hsub _ hin1))))))
  · intro hanone
    rw [hanone] at hE
    constructor
    · intro d e vd hmem hvd
      rw [count_eq_encLoop (q := (Tag.artMissingEnc, mkArtMissingEnc d)) hl rfl]
      have hcount := encLoop_count
        (q := (Tag.artMissingEnc, mkArtMissingEnc d))
        (g := fun kv => if kv.1 = d ∧ (parseDate kv.1).isSome = true then 1 else 0)
        (fun seen d2 e2 c s2 hok => encOne_count_artME hok) hE
      rw [hcount]
      exact sum_key_parse_indicator hnd hmem (by rw [hvd]; rfl)
    · rw [hl]
      simp only [List.count_append]
      have z1 : (invalidIdIssues r).count (Tag.artMissingGlobal, artMissingGlobalMsg) = 0 :=
        count_zero_of_tags (fun p hp => by rw [invalidId_tag hp]; simp)
      have z2 : (hnIssue r).count (Tag.artMissingGlobal, artMissingGlobalMsg) = 0 :=
        count_zero_of_tags (fun p hp => by rw [hn_tag hp]; simp)
      have z4 : (addressIssues r).count (Tag.artMissingGlobal, artMissingGlobalMsg) = 0 :=
        count_zero_of_tags (fun p hp => by rw [addr_tag hp]; simp)
      have z5 : L.count (Tag.artMissingGlobal, artMissingGlobalMsg) = 0 :=
        count_zero_of_tags (fun p hp => by
          have h2 := encLoop_tags hE p hp
          intro hc
          rw [hc] at h2
          simp [encTagB] at h2)
      have z6 : (arvMismatchIssues r).count (Tag.artMissingGlobal, artMissingGlobalMsg) = 0 :=
        count_zero_of_tags (fun p hp => by rw [arvMismatch_tag hp]; simp)
      have z7 : (labIssues r).count (Tag.artMissingGlobal, artMissingGlobalMsg) = 0 :=
        count_zero_of_tags (fun p hp => by rw [lab_tag hp]; simp)
      have z8 : (ageIssues r).count (Tag.artMissingGlobal, artMissingGlobalMsg) = 0 :=
        count_zero_of_tags (fun p hp => by
          rcases age_tag hp with hh | hh <;> rw [hh] <;> simp)
      have z9 : (heightArtIssues r).count (Tag.artMissingGlobal, artMissingGlobalMsg) = 0 :=
        count_zero_of_tags (fun p hp => by rw [heightArt_tag hp]; simp)
      have z10 : (heightEncIssues r).count (Tag.artMissingGlobal, artMissingGlobalMsg) = 0 :=
        count_zero_of_tags (fun p hp => by rw [heightEnc_tag hp]; simp)
      have z3 : (artMissingIssue r).count (Tag.artMissingGlobal, artMissingGlobalMsg) = 1 := by
        unfold artMissingIssue
        have hc : (r.validation_flags.contains "Missing ARTStartDate" ||
            r.art_start.isNone) = true := by
          rw [hanone]
          simp
        rw [if_pos hc]
        simp [List.count_cons]
      rw [z1, z2, z3, z4, z5, z6, z7, z8, z9, z10]

/-- C4 (witness): ART start 2023-06-01 and an encounter on 2023-05-01 with
an ARV code yields the chronology-violation issue naming 2023-06-01. -/
theorem C4_witness : (Tag.chronoViolation, mkChrono "2023-05-01" ⟨2023, 6, 1⟩) ∈ lW4 :=
  (C4_thm rW4 lW4 rfl (by decide)).1 "2023-05-01" ⟨some "AZT", some "1", none⟩
    ⟨2023, 5, 1⟩ ⟨2023, 6, 1⟩ (by decide) (by decide) rfl (by decide) (by decide)

/-! ## Claim C1 -/

theorem tbIssues_ok {ipt : List String} {d : String} {e : Encounter}
    (hp : ∀ x ∈ ipt, (parseDate x).isSome = true) :
    ∃ tl, tbIssues ipt d e = Except.ok tl := by
  unfold tbIssues
  cases e.tb with
  | none => exact ⟨_, rfl⟩
  | some tb =>
    dsimp only
    by_cases h0 : tb = "0"
    · rw [if_pos h0]
      cases hvd : parseDate d with
      | none => exact ⟨_, by rw [anyIptGe_vdnone]⟩
      | some vd => exact ⟨_, by rw [anyIptGe_parse hp]⟩
    · rw [if_neg h0]
      by_cases h234 : tb = "2" ∨ tb = "3" ∨ tb = "4"
      · rw [if_pos h234]
        cases hvd : parseDate d with
        | none => exact ⟨_, by rw [anyIptGe_vdnone]⟩
        | some vd => exact ⟨_, by rw [anyIptGe_parse hp]⟩
      · rw [if_neg h234]
        exact ⟨_, rfl⟩

theorem encLoop_total {ipt : List String} {regs : List (String × Regimen)} {a : Option Date}
    (hp : ∀ x ∈ ipt, (parseDate x).isSome = true) :
    ∀ (es : List (String × Encounter)) (seen : List String),
      ∃ L sF, encLoop ipt regs a es seen = Except.ok (L, sF) := by
  intro es
  induction es with
  | nil =>
    intro seen
    exact ⟨[], seen, rfl⟩
  | cons kv rest ih =>
    intro seen
    obtain ⟨d2, e2⟩ := kv
    by_cases hd : d2 = "Unknown"
    · subst hd
      obtain ⟨L2, sF, hL⟩ := ih seen
      refine ⟨[(Tag.encUnknown, encUnknownMsg)] ++ L2, sF, ?_⟩
      unfold encLoop
      rw [encOne_unknown]
      dsimp only
      rw [hL]
    · obtain ⟨tl, htl⟩ := tbIssues_ok (d := d2) (e := e2) hp
      obtain ⟨L2, sF, hL⟩ := ih (durPass regs seen).2
      refine ⟨(arvPart d2 e2 ++ chronoPart a d2 e2 ++ tl ++ (durPass regs seen).1) ++ L2,
        sF, ?_⟩
      unfold encLoop
      rw [encOne_ok hd htl]
      dsimp only
      rw [hL]

theorem enc_only_mem {r : ClinicalRecord} {L : List TIssue} {q : TIssue}
    (hq : encTagB q.1 = true)
    (hmem : q ∈ invalidIdIssues r ++ hnIssue r ++ artMissingIssue r ++ addressIssues r ++ L ++
      arvMismatchIssues r ++ labIssues r ++ ageIssues r ++ heightArtIssues r ++
      heightEncIssues r) :
    q ∈ L := by
  have hne : ∀ t : Tag, encTagB t = false → ¬(q.1 = t) := by
    intro t htf hc
    rw [hc] at hq
    rw [htf] at hq
    cases hq
  simp only [List.mem_append] at hmem
  rcases hmem with ((((((((h1 | h1) | h1) | h1) | h1) | h1) | h1) | h1) | h1) | h1
  · exact absurd (invalidId_tag h1) (hne Tag.invalidId rfl)
  · exact absurd (hn_tag h1) (hne Tag.missingHN rfl)
  · exact absurd (artG_tag h1) (hne Tag.artMissingGlobal rfl)
  · exact absurd (addr_tag h1) (hne Tag.addressFlag rfl)
  · exact h1
  · exact absurd (arvMismatch_tag h1) (hne Tag.arvMismatch rfl)
  · exact absurd (lab_tag h1) (hne Tag.labIncomplete rfl)
  · rcases age_tag h1 with hh | hh
    · exact absurd hh (hne Tag.ageMismatch rfl)
    · exact absurd hh (hne Tag.ageWarn rfl)
  · exact absurd (heightArt_tag h1) (hne Tag.heightArt rfl)
  · exact absurd (heightEnc_tag h1) (hne Tag.heightEnc rfl)

theorem encLoop_tb_origin {ipt : List String} {regs : List (String × Regimen)} {a : Option Date} :
    ∀ {es : List (String × Encounter)} {seen : List String} {L : List TIssue} {sF : List String},
      encLoop ipt regs a es seen = Except.ok (L, sF) →
      ∀ {p : TIssue}, p ∈ L →
        (p.1 = Tag.tbMissing ∨ p.1 = Tag.tbNoIpt ∨ p.1 = Tag.tbConflict) →
        ∃ d2 e2 tl, (d2, e2) ∈ es ∧ tbIssues ipt d2 e2 = Except.ok tl ∧ p ∈ tl := by
  intro es
  induction es with
  | nil =>
    intro seen L sF h p hp htag
    unfold encLoop at h
    have hc : ([] : List TIssue) = L := congrArg Prod.fst (Except.ok.inj h)
    rw [← hc] at hp
    cases hp
  | cons kv rest ih =>
    intro seen L sF h p hp htag
    obtain ⟨d2, e2⟩ := kv
    obtain ⟨l1, s1, l2, h1, h2, rfl⟩ := encLoop_cons_ok h
    rcases List.mem_append.mp hp with hp1 | hp2
    · unfold encOne at h1
      by_cases hd : d2 = "Unknown"
      · rw [if_pos hd] at h1
        have hc : [(Tag.encUnknown, encUnknownMsg)] = l1 := congrArg Prod.fst (Except.ok.inj h1)
        rw [← hc] at hp1
        simp only [List.mem_singleton] at hp1
        rw [hp1] at htag
        rcases htag with hh | hh | hh <;> cases hh
      · rw [if_neg hd] at h1
        cases htb : tbIssues ipt d2 e2 with
        | error u => rw [htb] at h1; cases h1
        | ok tl =>
          rw [htb] at h1
          dsimp only at h1
          have hc : arvPart d2 e2 ++ chronoPart a d2 e2 ++ tl ++ (durPass regs seen).1 = l1 :=
            congrArg Prod.fst (Except.ok.inj h1)
          rw [← hc] at hp1
          rcases List.mem_append.mp hp1 with hq1 | hqd
          · rcases List.mem_append.mp hq1 with hq2 | hqt
            · rcases List.mem_append.mp hq2 with hqa | hqc
              · rw [arvPart_mem hqa] at htag
                rcases htag with hh | hh | hh <;> cases hh
              · rcases chronoPart_mem hqc with hh | hh | hh <;> rw [hh] at htag <;>
                  rcases htag with h3 | h3 | h3 <;> cases h3
            · exact ⟨d2, e2, tl, List.mem_cons_self _ _, htb, hqt⟩
          · rcases durPass_tags hqd with hh | hh | hh <;> rw [hh] at htag <;>
              rcases htag with h3 | h3 | h3 <;> cases h3
    · obtain ⟨d3, e3, tl, hm3, htb3, hp3⟩ := ih h2 hp2 htag
      exact ⟨d3, e3, tl, List.mem_cons_of_mem _ hm3, htb3, hp3⟩

theorem tb_chunk_mem {ipt : List String} {regs : List (String × Regimen)} {a : Option Date}
    {seen : List String} {d : String} {e : Encounter} {l1 : List TIssue} {s1 : List String}
    {x : TIssue}
    (hdU : ¬(d = "Unknown"))
    (htl : tbIssues ipt d e = Except.ok [x])
    (hone : encOne ipt regs a seen d e = Except.ok (l1, s1)) : x ∈ l1 := by
  unfold encOne at hone
  rw [if_neg hdU, htl] at hone
  dsimp only at hone
  have hl1 : arvPart d e ++ chronoPart a d e ++ [x] ++ (durPass regs seen).1 = l1 :=
    congrArg Prod.fst (Except.ok.inj hone)
  rw [← hl1]
  simp only [List.mem_append, List.mem_singleton]
  exact Or.inl (Or.inr trivial)

/-- C1 (counterexample): the claim as stated fails: here the encounter dated
2024-03-05 has TB status "0" and no INH-coded regimen has a date on or after
it (the only INH regimen's key "2024-13-40" does not parse), yet the
validator emits nothing at all — it raises instead of returning an issue
list. -/
theorem C1_cex :
    parseDate "2024-03-05" = some ⟨2024, 3, 5⟩ ∧
    someIptGeB rC1x.regimens ⟨2024, 3, 5⟩ = false ∧
    rC1x.encounters = [("2024-03-05", ⟨some "ABC", some "0", none⟩)] ∧
    (∀ l, ¬(validateT rC1x = Except.ok l)) := by
  refine ⟨by decide, by decide, rfl, ?_⟩
  intro l hc
  rw [show validateT rC1x = Except.error () from rfl] at hc
  cases hc

/-- C1 (amended): provided every INH-coded regimen date key parses (the
counterexample shows the validator raises otherwise), the validator returns
an issue list and, for every encounter: with a parsable visit date, TB
status "0" with no INH regimen date on or after the visit date emits the
no-IPT issue; TB status "2"/"3"/"4" with some INH regimen date on or after
the visit date emits the conflicting-IPT issue naming that status; TB
status "1" emits no TB/IPT issue for that date; an absent TB status emits
the TBStatus-missing issue.  With an unparsable (non-sentinel) visit date,
TB status "2"/"3"/"4" conflicts with any INH regimen at all. -/
theorem C1_thm (r : ClinicalRecord) (hinh : allInhParseB r.regimens = true)
    (hnd : (r.encounters.map Prod.fst).Nodup) :
    ∃ l, validateT r = Except.ok l ∧
      ∀ d e, (d, e) ∈ r.encounters →
        ((∀ vd, parseDate d = some vd →
           ((e.tb = some "0" → someIptGeB r.regimens vd = false →
              (Tag.tbNoIpt, mkNoIpt d) ∈ l) ∧
            (∀ t, e.tb = some t → (t = "2" ∨ t = "3" ∨ t = "4") →
              someIptGeB r.regimens vd = true → (Tag.tbConflict, mkConflict d t) ∈ l) ∧
            (e.tb = some "1" → noTBIssueFor l d) ∧
            (e.tb = none → (Tag.tbMissing, mkTbMissing d) ∈ l))) ∧
         (parseDate d = none → ¬(d = "Unknown") → ∀ t, e.tb = some t →
            (t = "2" ∨ t = "3" ∨ t = "4") → anyIptB r.regimens = true →
            (Tag.tbConflict, mkConflict d t) ∈ l)) := by
  have hparse := iptDates_parse hinh
  obtain ⟨L, sF, hE⟩ := encLoop_total hparse r.encounters []
  refine ⟨invalidIdIssues r ++ hnIssue r ++ artMissingIssue r ++ addressIssues r ++ L ++
    arvMismatchIssues r ++ labIssues r ++ ageIssues r ++ heightArtIssues r ++
    heightEncIssues r, ?_, ?_⟩
  · unfold validateT
    rw [hE]
  · intro d e hmem
    have hchain : ∀ x : TIssue, x ∈ L →
        x ∈ invalidIdIssues r ++ hnIssue r ++ artMissingIssue r ++ addressIssues r ++ L ++
          arvMismatchIssues r ++ labIssues r ++ ageIssues r ++ heightArtIssues r ++
          heightEncIssues r := by
      intro x hx
      simp only [List.mem_append]
      exact Or.inl (Or.inl (Or.inl (Or.inl (Or.inl (Or.inr hx)))))
    constructor
    · intro vd hvd
      have hdU : ¬(d = "Unknown") := by
        intro hc
        rw [hc, parse_unknown] at hvd
        cases hvd
      obtain ⟨s₀, l1, s1, hone, hsub⟩ := encLoop_mem hmem hE
      refine ⟨?_, ?_, ?_, ?_⟩
      · intro htb0 hnoipt
        have hb : anyIptGe (parseDate d) false (iptDates r.regimens) = Except.ok false := by
          rw [hvd, anyIptGe_parse hparse, iptDates_ge, hnoipt]
        have htl : tbIssues (iptDates r.regimens) d e =
            Except.ok [(Tag.tbNoIpt, mkNoIpt d)] := tbIssues_zero htb0 hb
        exact hchain _ (hsub _ (tb_chunk_mem hdU htl hone))
      · intro t htbt ht234 hsome
        have hb : anyIptGe (parseDate d) true (iptDates r.regimens) = Except.ok true := by
          rw [hvd, anyIptGe_parse hparse, iptDates_ge, hsome]
        have htl : tbIssues (iptDates r.regimens) d e =
            Except.ok [(Tag.tbConflict, mkConflict d t)] := tbIssues_234 htbt ht234 hb
        exact hchain _ (hsub _ (tb_chunk_mem hdU htl hone))
      · intro htb1
        refine ⟨?_, ?_, ?_⟩
        · intro hc
          obtain ⟨d2, e2, tl, hm2, htb2, hp2⟩ :=
            encLoop_tb_origin hE
              (enc_only_mem (q := (Tag.tbMissing, mkTbMissing d)) rfl hc) (Or.inl rfl)
          rcases tbIssues_spec htb2 _ hp2 with ⟨heq, htbe⟩ | ⟨heq, htbe⟩ | ⟨t2, heq, htbe, ht2⟩
          · have hd2 : d = d2 := tbMissing_inj (congrArg Prod.snd heq)
            rw [← hd2] at hm2
            rw [key_unique hnd hmem hm2] at htb1
            rw [htb1] at htbe
            cases htbe
          · cases congrArg Prod.fst heq
          · cases congrArg Prod.fst heq
        · intro hc
          obtain ⟨d2, e2, tl, hm2, htb2, hp2⟩ :=
            encLoop_tb_origin hE
              (enc_only_mem (q := (Tag.tbNoIpt, mkNoIpt d)) rfl hc) (Or.inr (Or.inl rfl))
          rcases tbIssues_spec htb2 _ hp2 with ⟨heq, htbe⟩ | ⟨heq, htbe⟩ | ⟨t2, heq, htbe, ht2⟩
          · cases congrArg Prod.fst heq
          · have hd2 : d = d2 := noIpt_inj (congrArg Prod.snd heq)
            rw [← hd2] at hm2
            rw [key_unique hnd hmem hm2] at htb1
            rw [htb1] at htbe
            simp at htbe
          · cases congrArg Prod.fst heq
        · intro t htmem hc
          obtain ⟨d2, e2, tl, hm2, htb2, hp2⟩ :=
            encLoop_tb_origin hE
              (enc_only_mem (q := (Tag.tbConflict, mkConflict d t)) rfl hc)
              (Or.inr (Or.inr rfl))
          rcases tbIssues_spec htb2 _ hp2 with ⟨heq, htbe⟩ | ⟨heq, htbe⟩ | ⟨t2, heq, htbe, ht2⟩
          · cases congrArg Prod.fst heq
          · cases congrArg Prod.fst heq
          · have hlen : t.length = t2.length := by
              have h1 : t.length = 1 := by
                simp only [List.mem_cons, List.not_mem_nil, or_false] at htmem
                rcases htmem with rfl | rfl | rfl <;> rfl
              have h2 : t2.length = 1 := by
                rcases ht2 with rfl | rfl | rfl <;> rfl
              rw [h1, h2]
            obtain ⟨hd2, ht2eq⟩ := conflict_inj hlen (congrArg Prod.snd heq)
            rw [← hd2] at hm2
            rw [key_unique hnd hmem hm2] at htb1
            rw [htb1] at htbe
            have h12 : t2 = "1" := (Option.some.inj htbe).symm
            rw [h12] at ht2
            simp at ht2
      · intro htbnone
        have htl : tbIssues (iptDates r.regimens) d e =
            Except.ok [(Tag.tbMissing, mkTbMissing d)] := tbIssues_missing htbnone
        exact hchain _ (hsub _ (tb_chunk_mem hdU htl hone))
    · intro hvdnone hdU t htbt ht234 hany
      obtain ⟨s₀, l1, s1, hone, hsub⟩ := encLoop_mem hmem hE
      have hb : anyIptGe (parseDate d) true (iptDates r.regimens) = Except.ok true := by
        rw [hvdnone, anyIptGe_vdnone, iptDates_empty, hany]
        rfl
      have htl : tbIssues (iptDates r.regimens) d e =
          Except.ok [(Tag.tbConflict, mkConflict d t)] := tbIssues_234 htbt ht234 hb
      exact hchain _ (hsub _ (tb_chunk_mem hdU htl hone))

/-- C1 (witness): TB status 0 on 2024-02-01 with no regimens at all makes
the no-IPT issue appear. -/
theorem C1_witness : ∃ l, validateT rW1 = Except.ok l ∧
    (Tag.tbNoIpt, mkNoIpt "2024-02-01") ∈ l := by
  obtain ⟨l, hok, hall⟩ := C1_thm rW1 (by decide) (by decide)
  refine ⟨l, hok, ?_⟩
  have h := (hall "2024-02-01" ⟨some "AZT", some "0", none⟩ (by decide)).1
    ⟨2024, 2, 1⟩ (by decide)
  exact h.1 rfl (by decide)

end NDR
